import Mathlib

/-! plumber, ActiveMQ backend: consume loop and produce path.

A shallow embedding of `backends/activemq/read.go`, `backends/activemq/write.go`
and the option record of `cli/activemq.go`.

* Go `[]byte` and the strings built from it are lists of bytes.
* A Go call returning `(value, error)` is a pair whose second component is
  `none` for a nil error.
* The broker, the file system and the helper packages (`pb`, `util`,
  `printer`, `encoding/base64`) are collaborators: their behaviour is a
  parameter, and every call the code makes on them is recorded, in order, in a
  trace of events.
* Go `int` is taken as the 64-bit two's complement integer of the 64-bit
  platforms: `lineNumber++` wraps.
-/

namespace Plumber

/-- Go byte slices, and Go strings obtained from them by `string(data)`. -/
abbrev Bytes := List UInt8

/-- The text of a Go `error`. -/
abbrev GoError := String

/-- Option record `cli.ActiveMQOptions` (cli/activemq.go:5-27). -/
structure ActiveMQOptions where
  Address : String
  Queue : String
  QueueDurable : Bool
  ReadQueueExclusive : Bool
  ReadLineNumbers : Bool
  ReadFollow : Bool
  ReadProtobufDir : String
  ReadProtobufRootMessage : String
  ReadOutputType : String
  ReadConvert : String
  WriteInputData : String
  WriteInputFile : String
  WriteInputType : String
  WriteOutputType : String
  WriteProtobufDir : String
  WriteProtobufRootMessage : String
deriving DecidableEq, Repr

/-! ## Consume side -/

/-- Result of the call `base64.StdEncoding.Decode(dst, src)`: either it returns
its pair `(n, err)`, or it panics (Go's decoder indexes `dst` without a length
check, so a `dst` that is too short aborts the process). -/
inductive DecodeCall where
  | returned (n : Nat) (err : Option GoError)
  | panicked
deriving DecidableEq, Repr

/-- Helper packages called by the consume loop. The message descriptor
`r.MsgDesc` is fixed for the whole run and is part of `DecodeProtobufToJSON`. -/
structure Library where
  /-- Call `pb.DecodeProtobufToJSON(dynamic.NewMessage(r.MsgDesc), body)`. -/
  DecodeProtobufToJSON : Bytes → Bytes × Option GoError
  /-- Call `util.Gunzip(body)`. -/
  Gunzip : Bytes → Bytes × Option GoError
  /-- Call `base64.StdEncoding.Decode(dst, src)`. -/
  base64Decode : Bytes → Bytes → DecodeCall

/-- What one call of `r.Receiver.Receive` delivers: an error, or a message with
its body and the result its `Accept` call will give. -/
inductive Delivery where
  | receiveError (err : GoError)
  | message (body : Bytes) (acceptErr : Option GoError)
deriving DecidableEq, Repr

/-- Observable steps of a run of the consume loop. The index `n` is the number
of the loop iteration, counted from 0. -/
inductive Event where
  /-- Call of `r.Receiver.Receive` in iteration `n`. -/
  | receive (n : Nat)
  /-- Call of `msg.Accept` in iteration `n`. -/
  | accept (n : Nat)
  /-- Call of `pb.DecodeProtobufToJSON` on `body` in iteration `n`. -/
  | decode (n : Nat) (body : Bytes)
  /-- Byte conversion `switch` entered with `body` in iteration `n`. -/
  | convert (n : Nat) (body : Bytes)
  /-- Call of `printer.Print(str)` in iteration `n`. -/
  | print (n : Nat) (str : Bytes)
  /-- Call of `printer.Error(msg)` in iteration `n`. -/
  | report (n : Nat) (msg : String)
deriving DecidableEq, Repr

/-- How a run ends: the function returns (nil or an error), the process
panics, or the run is still waiting inside `Receive` when the deliveries end. -/
inductive Outcome where
  | returned (err : Option GoError)
  | panicked
  | blocked
deriving DecidableEq, Repr

/-- A run: the events in the order they happen, and how the run ends. -/
structure Run where
  trace : List Event
  outcome : Outcome
deriving DecidableEq, Repr

/-- Put events that happened earlier in front of a run. -/
def Run.after (evs : List Event) (r : Run) : Run :=
  ⟨evs ++ r.trace, r.outcome⟩

/-- Go `int` arithmetic: reduce into the range of a signed 64-bit integer. -/
def wrapInt64 (x : Int) : Int :=
  (x + 9223372036854775808) % 18446744073709551616 - 9223372036854775808

/-- Bytes of an ASCII text. -/
def ascii (s : String) : Bytes :=
  s.toList.map (fun c => c.toNat.toUInt8)

/-- Value of `fmt.Sprintf("%d: ", lineNumber)`. -/
def sprintfLineNumber (lineNumber : Int) : Bytes :=
  ascii (toString lineNumber) ++ ascii ": "

/-- State of one loop iteration when it ends: the events it produced, the value
of `lineNumber`, and `exit = some out` when the iteration leaves the loop
(`return` or `break`, or a panic), `none` when the loop goes round again. -/
structure Iteration where
  events : List Event
  lineNumber : Int
  exit : Option Outcome
deriving DecidableEq, Repr

/-- Result of the byte conversion `switch` (read.go:86-96): the values of `data`
and `convertErr` after it, or a panic inside the library call. -/
inductive Conversion where
  | done (data : Bytes) (convertErr : Option GoError)
  | panicked
deriving DecidableEq, Repr

/-- Byte conversion `switch r.Options.ActiveMQ.ReadConvert` (read.go:86-96).
`data` is declared by `var data []byte`, so it is nil when the `base64` case
passes it to `Decode` as destination; that case assigns only `convertErr`. -/
def convertSwitch (E : Library) (o : ActiveMQOptions) (body : Bytes) : Conversion :=
  let data : Bytes := []
  if o.ReadConvert = "base64" then
    match E.base64Decode data body with
    | .returned _ convertErr => .done data convertErr
    | .panicked => .panicked
  else if o.ReadConvert = "gzip" then
    .done (E.Gunzip body).1 (E.Gunzip body).2
  else
    .done body none

/-- Loop body from the conversion `switch` to the end (read.go:86-118), entered
with the events `pre` of the iteration so far and the current `body`. -/
def convertAndPrint (E : Library) (o : ActiveMQOptions) (n : Nat) (lineNumber : Int)
    (pre : List Event) (body : Bytes) : Iteration :=
  match convertSwitch E o body with
  | .panicked => ⟨pre ++ [.convert n body], lineNumber, some .panicked⟩
  | .done _ (some convertErr) =>
    if o.ReadFollow = false then
      ⟨pre ++ [.convert n body], lineNumber,
        some (.returned (some ("unable to complete conversion: " ++ convertErr)))⟩
    else
      ⟨pre ++ [.convert n body,
          .report n ("unable to complete conversion for message: " ++ convertErr)],
        lineNumber, none⟩
  | .done data none =>
    let str : Bytes := data
    let str := if o.ReadLineNumbers then sprintfLineNumber lineNumber ++ str else str
    let lineNumber := if o.ReadLineNumbers then wrapInt64 (lineNumber + 1) else lineNumber
    ⟨pre ++ [.convert n body, .print n str], lineNumber,
      if o.ReadFollow = false then some (.returned none) else none⟩

/-- One iteration of the `for` loop of `(*ActiveMQ).Read` (read.go:62-119) on
the delivery `d`. -/
def iteration (E : Library) (o : ActiveMQOptions) (n : Nat) (lineNumber : Int)
    (d : Delivery) : Iteration :=
  match d with
  | .receiveError err =>
    ⟨[.receive n], lineNumber, some (.returned (some ("unable to receive message: " ++ err)))⟩
  | .message _ (some err) =>
    ⟨[.receive n, .accept n], lineNumber,
      some (.returned (some ("unable to accept message: " ++ err)))⟩
  | .message body none =>
    if o.ReadOutputType = "protobuf" then
      match E.DecodeProtobufToJSON body with
      | (_, some err) =>
        if o.ReadFollow = false then
          ⟨[.receive n, .accept n, .decode n body], lineNumber,
            some (.returned (some ("unable to decode protobuf message: " ++ err)))⟩
        else
          ⟨[.receive n, .accept n, .decode n body,
              .report n ("unable to decode protobuf message: " ++ err)], lineNumber, none⟩
      | (decoded, none) =>
        convertAndPrint E o n lineNumber [.receive n, .accept n, .decode n body] decoded
    else
      convertAndPrint E o n lineNumber [.receive n, .accept n] body

/-- The `for` loop of `(*ActiveMQ).Read` over the deliveries the receiver will
make, from iteration `n` with the given `lineNumber`. When the deliveries are
used up the next `Receive` call does not return. -/
def readLoop (E : Library) (o : ActiveMQOptions) : List Delivery → Nat → Int → Run
  | [], n, _ => ⟨[.receive n], .blocked⟩
  | d :: rest, n, lineNumber =>
    match (iteration E o n lineNumber d).exit with
    | some out => ⟨(iteration E o n lineNumber d).events, out⟩
    | none =>
      (readLoop E o rest (n + 1) (iteration E o n lineNumber d).lineNumber).after
        (iteration E o n lineNumber d).events

/-- Method `(*ActiveMQ).Read` (read.go:57-124): `lineNumber := 1`, then the loop. -/
def ActiveMQ.Read (E : Library) (o : ActiveMQOptions) (deliveries : List Delivery) : Run :=
  readLoop E o deliveries 0 1

/-- Lines handed to `printer.Print`, in order. -/
def printed (t : List Event) : List Bytes :=
  t.filterMap (fun e => match e with | .print _ s => some s | _ => none)

/-- Messages handed to `printer.Error`, in order. -/
def reported (t : List Event) : List String :=
  t.filterMap (fun e => match e with | .report _ m => some m | _ => none)

/-- Number of `Receive` calls. -/
def receiveCalls (t : List Event) : Nat :=
  t.countP (fun e => match e with | .receive _ => true | _ => false)

/-- Iteration in which an event happens. -/
def Event.index : Event → Nat
  | .receive n => n
  | .accept n => n
  | .decode n _ => n
  | .convert n _ => n
  | .print n _ => n
  | .report n _ => n

/-- Body handed to the byte conversion, with the error of the schema decode:
the decoded text when `ReadOutputType` is `protobuf` (read.go:72-84), the
received body otherwise. -/
def schemaStage (E : Library) (o : ActiveMQOptions) (body : Bytes) : Bytes × Option GoError :=
  if o.ReadOutputType = "protobuf" then E.DecodeProtobufToJSON body else (body, none)

/-- What becomes of one accepted message body: it is converted to `data`; or a
stage returns an error, with the text reported in follow mode and the text
returned in single-shot mode; or the library call panics. -/
inductive Verdict where
  | emitted (data : Bytes)
  | failed (report : String) (fatal : GoError)
  | crashed
deriving DecidableEq, Repr

/-- Verdict on a body: schema stage, then byte conversion. -/
def verdict (E : Library) (o : ActiveMQOptions) (body : Bytes) : Verdict :=
  match schemaStage E o body with
  | (_, some err) =>
    .failed ("unable to decode protobuf message: " ++ err)
      ("unable to decode protobuf message: " ++ err)
  | (b, none) =>
    match convertSwitch E o b with
    | .panicked => .crashed
    | .done _ (some convertErr) =>
      .failed ("unable to complete conversion for message: " ++ convertErr)
        ("unable to complete conversion: " ++ convertErr)
    | .done data none => .emitted data

/-- Converted body of a message that converts successfully. -/
def Verdict.data? : Verdict → Option Bytes
  | .emitted data => some data
  | _ => none

/-- Error text of a message whose decode or conversion fails. -/
def Verdict.report? : Verdict → Option String
  | .failed report _ => some report
  | _ => none

/-- Whether the conversion of the body returns, without a panic. -/
def returns (E : Library) (o : ActiveMQOptions) (body : Bytes) : Bool :=
  verdict E o body != .crashed

/-- Converted body of a delivery: of a message that is received, accepted and
converted successfully. -/
def Delivery.data? (E : Library) (o : ActiveMQOptions) : Delivery → Option Bytes
  | .message body none => (verdict E o body).data?
  | _ => none

/-- Line printed for `data` when the counter is `lineNumber` (read.go:107-112). -/
def outputLine (o : ActiveMQOptions) (lineNumber : Int) (data : Bytes) : Bytes :=
  if o.ReadLineNumbers then sprintfLineNumber lineNumber ++ data else data

/-- Value of a character of the standard base64 alphabet (RFC 4648, table 1). -/
def base64Value (c : UInt8) : Option Nat :=
  if 65 ≤ c.toNat ∧ c.toNat ≤ 90 then some (c.toNat - 65)
  else if 97 ≤ c.toNat ∧ c.toNat ≤ 122 then some (c.toNat - 97 + 26)
  else if 48 ≤ c.toNat ∧ c.toNat ≤ 57 then some (c.toNat - 48 + 52)
  else if c.toNat = 43 then some 62
  else if c.toNat = 47 then some 63
  else none

/-- Reference decoder for padded standard base64 (RFC 4648, section 4): the
bytes a valid text stands for, `none` for a text that is not valid. It is the
yardstick for the decoded bytes, not part of the program. -/
def referenceBase64 : Bytes → Option Bytes
  | a :: b :: c :: d :: rest =>
    match base64Value a, base64Value b with
    | some x, some y =>
      if c = 61 ∧ d = 61 ∧ rest = [] then
        if y % 16 = 0 then some [(x * 4 + y / 16).toUInt8] else none
      else
        match base64Value c with
        | none => none
        | some z =>
          if d = 61 ∧ rest = [] then
            if z % 4 = 0 then
              some [(x * 4 + y / 16).toUInt8, (y % 16 * 16 + z / 4).toUInt8]
            else none
          else
            match base64Value d, referenceBase64 rest with
            | some w, some tail =>
              some ((x * 4 + y / 16).toUInt8 :: (y % 16 * 16 + z / 4).toUInt8 ::
                (z % 4 * 64 + w).toUInt8 :: tail)
            | _, _ => none
    | _, _ => none
  | [] => some []
  | _ => none

/-- A library for concrete runs. The schema decode rejects a body that starts
with the byte 0 and otherwise puts the body between braces; gunzip rejects the
empty body and otherwise reverses it; the base64 decoder returns on an empty
source, rejects a source starting with `!`, and otherwise writes into `dst`,
which panics when `dst` is empty. -/
def sampleLibrary : Library where
  DecodeProtobufToJSON := fun b =>
    if b.head? = some 0 then ([], some "unexpected EOF") else (123 :: b ++ [125], none)
  Gunzip := fun b => if b = [] then ([], some "EOF") else (b.reverse, none)
  base64Decode := fun dst src =>
    if src = [] then .returned 0 none
    else if src.head? = some 33 then .returned 0 (some "illegal base64 data at input byte 0")
    else if dst.length = 0 then .panicked
    else .returned 1 none

/-- Options as the command line leaves them when only the queue is given
(cli/activemq.go:43-81). -/
def defaultOptions : ActiveMQOptions :=
  { Address := "amqp://localhost:5672", Queue := "q", QueueDurable := false,
    ReadQueueExclusive := true, ReadLineNumbers := false, ReadFollow := false,
    ReadProtobufDir := "", ReadProtobufRootMessage := "", ReadOutputType := "plain",
    ReadConvert := "", WriteInputData := "", WriteInputFile := "", WriteInputType := "plain",
    WriteOutputType := "plain", WriteProtobufDir := "", WriteProtobufRootMessage := "" }

/-- Follow mode with protobuf output: `--follow --output-type protobuf`. -/
def followProtobufOptions : ActiveMQOptions :=
  { defaultOptions with ReadFollow := true, ReadOutputType := "protobuf" }

/-- Follow mode with protobuf output and line numbers:
`--follow --line-numbers --output-type protobuf`. -/
def numberedFollowOptions : ActiveMQOptions :=
  { defaultOptions with ReadFollow := true, ReadLineNumbers := true, ReadOutputType := "protobuf" }

/-- Single-shot mode with base64 conversion: `--convert base64`. -/
def base64Options : ActiveMQOptions :=
  { defaultOptions with ReadConvert := "base64" }

/-- Follow mode with base64 conversion: `--follow --convert base64`. -/
def followBase64Options : ActiveMQOptions :=
  { defaultOptions with ReadFollow := true, ReadConvert := "base64" }

/-- Whether an event works on the body of a message (decode, conversion,
print, report) rather than on the transport (receive, accept). -/
def Event.processes : Event → Bool
  | .receive _ => false
  | .accept _ => false
  | _ => true

/-- Produce options with both an inline value and an input file:
`--input-data hi --input-file in.bin`. -/
def bothInputsOptions : ActiveMQOptions :=
  { defaultOptions with WriteInputData := "hi", WriteInputFile := "in.bin" }

/-- Produce options with an unsupported pair of types and an input file:
`--input-type base64 --input-file in.bin`. -/
def base64InputOptions : ActiveMQOptions :=
  { defaultOptions with WriteInputFile := "in.bin", WriteInputType := "base64" }

/-! ## Produce side -/

/-- Handle of a resolved message type (`*desc.MessageDescriptor`). -/
structure MessageDescriptor where
  id : Nat
deriving DecidableEq, Repr

/-- In-memory dynamic message (`*dynamic.Message`): its descriptor and its
contents, which only the protobuf packages interpret. -/
structure DynamicMessage where
  md : MessageDescriptor
  content : Bytes
deriving DecidableEq, Repr

/-- Value of `dynamic.NewMessage(md)`: an empty message of the type. -/
def DynamicMessage.new (md : MessageDescriptor) : DynamicMessage :=
  ⟨md, []⟩

/-- File system, schema resolver, protobuf packages and broker, as the produce
path calls them. -/
structure World where
  /-- Value of `os.IsNotExist(err)` for `_, err := os.Stat(path)`. -/
  statNotExist : String → Bool
  /-- Call `pb.FindMessageDescriptor(dir, rootMessage)`. -/
  FindMessageDescriptor : String → String → Option MessageDescriptor × Option GoError
  /-- Call `amqp.Dial(address, amqp.ConnSASLAnonymous())`: its error. -/
  Dial : String → Option GoError
  /-- Call `ac.NewSession()`: its error. -/
  NewSession : Option GoError
  /-- Call `session.NewSender(amqp.LinkTargetAddress(queue), durability)`, the
  flag telling whether the durability is `DurabilityUnsettledState`: its error. -/
  NewSender : String → Bool → Option GoError
  /-- Call `ioutil.ReadFile(path)`. -/
  ReadFile : String → Bytes × Option GoError
  /-- Call `jsonpb.Unmarshal(buf, m)`: the message afterwards, and the error. -/
  Unmarshal : Bytes → DynamicMessage → DynamicMessage × Option GoError
  /-- Call `proto.Marshal(m)`. -/
  Marshal : DynamicMessage → Bytes × Option GoError
  /-- Call `r.Sender.Send(ctx, amqp.NewMessage(value))`: its error. -/
  Send : Bytes → Option GoError

/-- Calls the produce path makes on the world, in order. -/
inductive WriteEvent where
  | stat (path : String)
  | findMessageDescriptor (dir : String) (rootMessage : String)
  | dial (address : String)
  | newSession
  | newSender (queue : String) (durable : Bool)
  | readFile (path : String)
  | unmarshal (data : Bytes)
  | marshal
  | send (value : Bytes)
deriving DecidableEq, Repr

/-- Conversion `[]byte(s)` of a Go string. -/
def goBytes (s : String) : Bytes :=
  s.toUTF8.data.toList

/-- Function `newWriter` (activemq.go:54-76): events, and the error if any. -/
def newWriter (W : World) (o : ActiveMQOptions) : List WriteEvent × Option GoError :=
  match W.Dial o.Address with
  | some err => ([.dial o.Address], some err)
  | none =>
    match W.NewSession with
    | some err =>
      ([.dial o.Address, .newSession], some ("unable to instantiate session: " ++ err))
    | none =>
      let durability := if o.QueueDurable then true else false
      match W.NewSender o.Queue durability with
      | some err =>
        ([.dial o.Address, .newSession, .newSender o.Queue durability],
          some ("unable to instantiate sender: " ++ err))
      | none => ([.dial o.Address, .newSession, .newSender o.Queue durability], none)

/-- Function `validateWriteOptions` (write.go:67-107): events, and the error if any. -/
def validateWriteOptions (W : World) (o : ActiveMQOptions) : List WriteEvent × Option GoError :=
  if o.Address = "" then ([], some "--address cannot be empty")
  else if o.Queue = "" then ([], some "--queue cannot be empty")
  else
    let checkInput (pre : List WriteEvent) : List WriteEvent × Option GoError :=
      if o.WriteInputData ≠ "" ∧ o.WriteInputFile ≠ "" then
        (pre, some "--input-data and --input-file cannot both be set (choose one!)")
      else if o.WriteInputFile ≠ "" then
        if W.statNotExist o.WriteInputFile then
          (pre ++ [.stat o.WriteInputFile],
            some ("--input-file '" ++ o.WriteInputFile ++ "' does not exist"))
        else (pre ++ [.stat o.WriteInputFile], none)
      else (pre, none)
    if o.WriteOutputType = "protobuf" then
      if o.WriteProtobufDir = "" then
        ([], some "'--protobuf-dir' must be set when type is set to 'protobuf'")
      else if o.WriteProtobufRootMessage = "" then
        ([], some "'--protobuf-root-message' must be when type is set to 'protobuf'")
      else if W.statNotExist o.WriteProtobufDir then
        ([.stat o.WriteProtobufDir],
          some ("--protobuf-dir '" ++ o.WriteProtobufDir ++ "' does not exist"))
      else checkInput [.stat o.WriteProtobufDir]
    else checkInput []

/-- Function `convertJSONPBToProtobuf` (write.go:156-170). -/
def convertJSONPBToProtobuf (W : World) (data : Bytes) (m : DynamicMessage) :
    List WriteEvent × Bytes × Option GoError :=
  match W.Unmarshal data m with
  | (_, some err) =>
    ([.unmarshal data], [], some ("unable to unmarshal data into dynamic message: " ++ err))
  | (m, none) =>
    match W.Marshal m with
    | (_, some err) =>
      ([.unmarshal data, .marshal], [],
        some ("unable to marshal dynamic protobuf message to bytes: " ++ err))
    | (pbBytes, none) => ([.unmarshal data, .marshal], pbBytes, none)

/-- Function `generateWriteValue` (write.go:109-153). A nil descriptor is
`none`; `dynamic.NewMessage` is reached only with a descriptor. -/
def generateWriteValue (W : World) (md : Option MessageDescriptor) (o : ActiveMQOptions) :
    List WriteEvent × Bytes × Option GoError :=
  let data : Bytes := []
  let data := if o.WriteInputData ≠ "" then goBytes o.WriteInputData else data
  let rest (pre : List WriteEvent) (data : Bytes) : List WriteEvent × Bytes × Option GoError :=
    if o.WriteOutputType = "protobuf" ∧ md = none then
      (pre, [], some "message descriptor cannot be nil when --output-type is protobuf")
    else if o.WriteInputType = "plain" ∧ o.WriteOutputType = "plain" then
      (pre, data, none)
    else if o.WriteInputType = "jsonpb" ∧ o.WriteOutputType = "protobuf" then
      match md with
      | none => (pre, [], some "message descriptor cannot be nil when --output-type is protobuf")
      | some md =>
        match convertJSONPBToProtobuf W data (DynamicMessage.new md) with
        | (evs, _, some convertErr) =>
          (pre ++ evs, [], some ("unable to convert JSONPB to protobuf: " ++ convertErr))
        | (evs, data, none) => (pre ++ evs, data, none)
    else (pre, [], some "unsupported input/output combination")
  if o.WriteInputFile ≠ "" then
    match W.ReadFile o.WriteInputFile with
    | (_, some readErr) =>
      ([.readFile o.WriteInputFile], [],
        some ("unable to read file '" ++ o.WriteInputFile ++ "': " ++ readErr))
    | (data, none) => rest [.readFile o.WriteInputFile] data
  else rest [] data

/-- Method `(*ActiveMQ).Write` (write.go:63-65). -/
def ActiveMQ.Write (W : World) (value : Bytes) : List WriteEvent × Option GoError :=
  ([.send value], W.Send value)

/-- Descriptor lookup of `Write` (write.go:31-39): events, `md` and `mdErr`. -/
def lookupDescriptor (W : World) (o : ActiveMQOptions) :
    List WriteEvent × Option MessageDescriptor × Option GoError :=
  if o.WriteOutputType = "protobuf" then
    ([.findMessageDescriptor o.WriteProtobufDir o.WriteProtobufRootMessage],
      W.FindMessageDescriptor o.WriteProtobufDir o.WriteProtobufRootMessage)
  else ([], none, none)

/-- Function `Write` (write.go:26-59): the events of the whole call, and the
error it returns. -/
def Write (W : World) (o : ActiveMQOptions) : List WriteEvent × Option GoError :=
  match validateWriteOptions W o with
  | (ev1, some err) => (ev1, some ("unable to validate read options: " ++ err))
  | (ev1, none) =>
    match lookupDescriptor W o with
    | (ev2, _, some mdErr) =>
      (ev1 ++ ev2, some ("unable to find root message descriptor: " ++ mdErr))
    | (ev2, md, none) =>
      match newWriter W o with
      | (ev3, some err) =>
        (ev1 ++ ev2 ++ ev3, some ("unable to complete initial connect: " ++ err))
      | (ev3, none) =>
        match generateWriteValue W md o with
        | (ev4, _, some err) =>
          (ev1 ++ ev2 ++ ev3 ++ ev4, some ("unable to generate write value: " ++ err))
        | (ev4, msg, none) =>
          (ev1 ++ ev2 ++ ev3 ++ ev4 ++ (ActiveMQ.Write W msg).1, (ActiveMQ.Write W msg).2)

/-- Values handed to `Send`, in order. -/
def sent (t : List WriteEvent) : List Bytes :=
  t.filterMap (fun e => match e with | .send v => some v | _ => none)

/-- The transport has been opened: `amqp.Dial` was called. -/
def dialed (t : List WriteEvent) : Bool :=
  t.any (fun e => match e with | .dial _ => true | _ => false)

/-- A world for concrete runs: every path exists, every call succeeds, the
resolver finds descriptor 7, and a file holds the bytes `1, 2, 3`. -/
def sampleWorld : World where
  statNotExist := fun _ => false
  FindMessageDescriptor := fun _ _ => (some ⟨7⟩, none)
  Dial := fun _ => none
  NewSession := none
  NewSender := fun _ _ => none
  ReadFile := fun _ => ([1, 2, 3], none)
  Unmarshal := fun data m => (⟨m.md, data⟩, none)
  Marshal := fun m => (m.content, none)
  Send := fun _ => none

/-! ## Produce side: theorems -/

theorem validateWriteOptions_events (W : World) (o : ActiveMQOptions) :
    ∀ e ∈ (validateWriteOptions W o).1, ∃ p, e = .stat p := by
  unfold validateWriteOptions
  simp only []
  intro e he
  split_ifs at he <;> simp at he <;> (try rcases he with he | he) <;> subst_vars <;> exact ⟨_, rfl⟩

/-- C7: when both `WriteInputData` and `WriteInputFile` are non-empty,
`validateWriteOptions` returns an error, and `Write` returns an error having
made no call other than `os.Stat`: no connection is dialed, no sender is
opened and nothing is sent. -/
theorem both_inputs_rejected_before_transport (W : World) (o : ActiveMQOptions)
    (hd : o.WriteInputData ≠ "") (hf : o.WriteInputFile ≠ "") :
    (validateWriteOptions W o).2 ≠ none ∧ (Write W o).2 ≠ none ∧
      (∀ e ∈ (Write W o).1, ∃ p, e = .stat p) ∧
      dialed (Write W o).1 = false ∧ sent (Write W o).1 = [] := by
  have hv : (validateWriteOptions W o).2 ≠ none := by
    unfold validateWriteOptions
    simp only []
    split_ifs <;> simp_all
  have hw : Write W o = ((validateWriteOptions W o).1,
      (validateWriteOptions W o).2.map (fun err => "unable to validate read options: " ++ err)) := by
    unfold Write
    rcases h : validateWriteOptions W o with ⟨ev, _ | err⟩
    · rw [h] at hv; simp at hv
    · simp
  have hev := validateWriteOptions_events W o
  refine ⟨hv, ?_, ?_, ?_, ?_⟩
  · rw [hw]; simpa using hv
  · rw [hw]; exact hev
  · rw [hw]; simp only [dialed, List.any_eq_false]
    intro e he
    obtain ⟨p, rfl⟩ := hev e he
    simp
  · rw [hw]; simp only [sent, List.filterMap_eq_nil_iff]
    intro e he
    obtain ⟨p, rfl⟩ := hev e he
    rfl

/-- Instance of C7: `--input-data hi --input-file in.bin` in the sample world. -/
theorem both_inputs_rejected_before_transport_witness :
    (bothInputsOptions.WriteInputData ≠ "" ∧ bothInputsOptions.WriteInputFile ≠ "") ∧
      (validateWriteOptions sampleWorld bothInputsOptions).2 ≠ none ∧
      (Write sampleWorld bothInputsOptions).2 ≠ none ∧
      (∀ e ∈ (Write sampleWorld bothInputsOptions).1, ∃ p, e = .stat p) ∧
      dialed (Write sampleWorld bothInputsOptions).1 = false ∧
      sent (Write sampleWorld bothInputsOptions).1 = [] :=
  ⟨by decide,
    both_inputs_rejected_before_transport sampleWorld bothInputsOptions (by decide) (by decide)⟩

theorem newWriter_events (W : World) (o : ActiveMQOptions) :
    ∀ e ∈ (newWriter W o).1,
      e = .dial o.Address ∨ e = .newSession ∨ ∃ d, e = .newSender o.Queue d := by
  intro e he
  unfold newWriter at he
  rcases h1 : W.Dial o.Address with _ | err <;> rw [h1] at he
  · rcases h2 : W.NewSession with _ | err <;> rw [h2] at he
    · simp only [] at he
      rcases h3 : W.NewSender o.Queue (if o.QueueDurable then true else false) with _ | err <;>
        rw [h3] at he <;> simp at he <;> rcases he with he | he | he <;> simp [he]
    · simp at he; rcases he with he | he <;> simp [he]
  · simp at he; simp [he]

/-- C8, as stated, fails: with neither `WriteInputData` nor `WriteInputFile`
set (the default options), `Write` raises no error and sends one message with
an empty body. -/
theorem no_input_is_sent_as_empty_message :
    defaultOptions.WriteInputData = "" ∧ defaultOptions.WriteInputFile = "" ∧
      (validateWriteOptions sampleWorld defaultOptions).2 = none ∧
      (Write sampleWorld defaultOptions).2 = none ∧
      sent (Write sampleWorld defaultOptions).1 = [[]] := by
  decide

/-- C8, amended: with neither `WriteInputData` nor `WriteInputFile` set no
configuration error is raised for the missing input. When address and queue
are given, both types are `plain` and the connection is established,
`validateWriteOptions` accepts the options without touching the file system,
`generateWriteValue` reads no file and yields the empty value, and `Write`
sends exactly one message, with an empty body, returning the result of `Send`. -/
theorem no_input_sends_empty_body (W : World) (o : ActiveMQOptions)
    (hd : o.WriteInputData = "") (hf : o.WriteInputFile = "")
    (ha : o.Address ≠ "") (hq : o.Queue ≠ "")
    (hi : o.WriteInputType = "plain") (ho : o.WriteOutputType = "plain")
    (hc : (newWriter W o).2 = none) :
    validateWriteOptions W o = ([], none) ∧
      generateWriteValue W none o = ([], [], none) ∧
      sent (Write W o).1 = [[]] ∧ (Write W o).2 = W.Send [] := by
  have hv : validateWriteOptions W o = ([], none) := by
    simp [validateWriteOptions, ha, hq, ho, hd, hf]
  have hg : generateWriteValue W none o = ([], [], none) := by
    simp [generateWriteValue, hd, hf, hi, ho]
  have hnw : ∀ e ∈ (newWriter W o).1, ∀ v, e ≠ .send v := by
    intro e he v
    rcases newWriter_events W o e he with h | h | ⟨d, h⟩ <;> simp [h]
  have hs : sent (newWriter W o).1 = [] := by
    simp only [sent, List.filterMap_eq_nil_iff]
    intro e he
    cases e <;> first | rfl | exact absurd rfl (hnw _ he _)
  have hw : Write W o = ((newWriter W o).1 ++ [.send []], W.Send []) := by
    rcases hnwr : newWriter W o with ⟨ev, _ | err⟩
    · simp [Write, lookupDescriptor, hv, ho, hnwr, hg, ActiveMQ.Write]
    · rw [hnwr] at hc; simp at hc
  refine ⟨hv, hg, ?_, ?_⟩
  · rw [hw]
    show sent ((newWriter W o).1 ++ [.send []]) = [[]]
    unfold sent at hs ⊢
    rw [List.filterMap_append, hs]
    rfl
  · rw [hw]

/-- Instance of the amended C8: the default options in the sample world. -/
theorem no_input_sends_empty_body_witness :
    (defaultOptions.WriteInputData = "" ∧ defaultOptions.WriteInputFile = "" ∧
        defaultOptions.Address ≠ "" ∧ defaultOptions.Queue ≠ "" ∧
        defaultOptions.WriteInputType = "plain" ∧ defaultOptions.WriteOutputType = "plain" ∧
        (newWriter sampleWorld defaultOptions).2 = none) ∧
      (validateWriteOptions sampleWorld defaultOptions = ([], none) ∧
        generateWriteValue sampleWorld none defaultOptions = ([], [], none) ∧
        sent (Write sampleWorld defaultOptions).1 = [[]] ∧
        (Write sampleWorld defaultOptions).2 = sampleWorld.Send []) :=
  ⟨by decide,
    no_input_sends_empty_body sampleWorld defaultOptions (by decide) (by decide) (by decide)
      (by decide) (by decide) (by decide) (by decide)⟩

theorem generateWriteValue_unsupported (W : World) (md : Option MessageDescriptor)
    (o : ActiveMQOptions)
    (h1 : ¬(o.WriteInputType = "plain" ∧ o.WriteOutputType = "plain"))
    (h2 : ¬(o.WriteInputType = "jsonpb" ∧ o.WriteOutputType = "protobuf")) :
    ∃ err, generateWriteValue W md o =
        ((if o.WriteInputFile ≠ "" then [.readFile o.WriteInputFile] else []), [], some err) ∧
      ((o.WriteInputFile ≠ "" → (W.ReadFile o.WriteInputFile).2 = none) →
        (o.WriteOutputType = "protobuf" → md ≠ none) →
        err = "unsupported input/output combination") := by
  unfold generateWriteValue
  simp only []
  by_cases hf : o.WriteInputFile = ""
  · by_cases hp : o.WriteOutputType = "protobuf" ∧ md = none
    · refine ⟨"message descriptor cannot be nil when --output-type is protobuf",
        by simp [hf, hp], ?_⟩
      intro _ hmd
      exact absurd hp.2 (hmd hp.1)
    · exact ⟨"unsupported input/output combination", by simp [hf, hp, h1, h2], fun _ _ => rfl⟩
  · rcases hr : W.ReadFile o.WriteInputFile with ⟨data, _ | readErr⟩
    · by_cases hp : o.WriteOutputType = "protobuf" ∧ md = none
      · refine ⟨"message descriptor cannot be nil when --output-type is protobuf",
          by simp [hf, hp], ?_⟩
        intro _ hmd
        exact absurd hp.2 (hmd hp.1)
      · exact ⟨"unsupported input/output combination", by simp [hf, hp, h1, h2], fun _ _ => rfl⟩
    · refine ⟨"unable to read file '" ++ o.WriteInputFile ++ "': " ++ readErr,
        by simp [hf], ?_⟩
      intro h
      simp [hf] at h

theorem sent_eq_nil (t : List WriteEvent) (h : ∀ e ∈ t, ∀ v, e ≠ .send v) : sent t = [] := by
  simp only [sent, List.filterMap_eq_nil_iff]
  intro e he
  cases e <;> first | rfl | exact absurd rfl (h _ he _)

theorem sent_append (s t : List WriteEvent) : sent (s ++ t) = sent s ++ sent t := by
  simp [sent, List.filterMap_append]

theorem dialed_append (s t : List WriteEvent) : dialed (s ++ t) = (dialed s || dialed t) := by
  simp [dialed, List.any_append]

theorem sent_validateWriteOptions (W : World) (o : ActiveMQOptions) :
    sent (validateWriteOptions W o).1 = [] := by
  apply sent_eq_nil
  intro e he v
  obtain ⟨p, rfl⟩ := validateWriteOptions_events W o e he
  simp

theorem sent_lookupDescriptor (W : World) (o : ActiveMQOptions) :
    sent (lookupDescriptor W o).1 = [] := by
  unfold lookupDescriptor
  split_ifs <;> rfl

theorem sent_newWriter (W : World) (o : ActiveMQOptions) : sent (newWriter W o).1 = [] := by
  apply sent_eq_nil
  intro e he v
  rcases newWriter_events W o e he with h | h | ⟨d, h⟩ <;> simp [h]

theorem dialed_newWriter (W : World) (o : ActiveMQOptions) : dialed (newWriter W o).1 = true := by
  unfold newWriter
  rcases W.Dial o.Address with _ | err
  · rcases W.NewSession with _ | err
    · simp only []
      rcases W.NewSender o.Queue (if o.QueueDurable then true else false) with _ | err <;>
        simp [dialed]
    · simp [dialed]
  · simp [dialed]

/-- C9, as stated, fails: with input type `base64`, output type `plain` and an
input file, `Write` returns the unsupported-combination error only after it has
dialed the broker, opened the sender and read the input file. -/
theorem unsupported_combination_found_after_io :
    Write sampleWorld base64InputOptions =
        ([.stat "in.bin", .dial "amqp://localhost:5672", .newSession, .newSender "q" false,
            .readFile "in.bin"],
          some "unable to generate write value: unsupported input/output combination") ∧
      dialed (Write sampleWorld base64InputOptions).1 = true ∧
      WriteEvent.readFile "in.bin" ∈ (Write sampleWorld base64InputOptions).1 := by
  decide

/-- C9, amended: for every input-type/output-type pair other than (plain,
plain) and (jsonpb, protobuf), `Write` returns an error and never calls `Send`.
The unsupported-combination error is raised by `generateWriteValue`, after the
other steps: when validation, descriptor lookup, connection and the reading of
the input file succeed, `Write` returns that error, and by then the transport
has been dialed and the input file, if one is configured, has been read. -/
theorem unsupported_combination_fails_without_send (W : World) (o : ActiveMQOptions)
    (h1 : ¬(o.WriteInputType = "plain" ∧ o.WriteOutputType = "plain"))
    (h2 : ¬(o.WriteInputType = "jsonpb" ∧ o.WriteOutputType = "protobuf")) :
    (Write W o).2 ≠ none ∧ sent (Write W o).1 = [] ∧
      ((validateWriteOptions W o).2 = none →
        (lookupDescriptor W o).2.2 = none →
        (o.WriteOutputType = "protobuf" → (lookupDescriptor W o).2.1 ≠ none) →
        (newWriter W o).2 = none →
        (o.WriteInputFile ≠ "" → (W.ReadFile o.WriteInputFile).2 = none) →
        (Write W o).2 =
            some "unable to generate write value: unsupported input/output combination" ∧
          dialed (Write W o).1 = true ∧
          (o.WriteInputFile ≠ "" → .readFile o.WriteInputFile ∈ (Write W o).1)) := by
  have hsv := sent_validateWriteOptions W o
  have hsl := sent_lookupDescriptor W o
  have hsn := sent_newWriter W o
  have hdn := dialed_newWriter W o
  rcases hv : validateWriteOptions W o with ⟨ev1, _ | verr⟩
  swap
  · rw [hv] at hsv
    simp [Write, hv, hsv]
  rcases hl : lookupDescriptor W o with ⟨ev2, md, _ | mdErr⟩
  swap
  · rw [hv] at hsv; rw [hl] at hsl
    simp at hsv hsl
    simp [Write, hv, hl, sent_append, hsv, hsl]
  rcases hn : newWriter W o with ⟨ev3, _ | cerr⟩
  swap
  · rw [hv] at hsv; rw [hl] at hsl; rw [hn] at hsn
    simp at hsv hsl hsn
    simp [Write, hv, hl, hn, sent_append, hsv, hsl, hsn]
  obtain ⟨err, hg, herr⟩ := generateWriteValue_unsupported W md o h1 h2
  rw [hv] at hsv; rw [hl] at hsl; rw [hn] at hsn hdn
  simp at hsv hsl hsn hdn
  have hw : Write W o = (ev1 ++ ev2 ++ ev3 ++
      (if o.WriteInputFile ≠ "" then [.readFile o.WriteInputFile] else []),
      some ("unable to generate write value: " ++ err)) := by
    simp [Write, hv, hl, hn, hg]
  have hs4 : sent (if o.WriteInputFile ≠ "" then [WriteEvent.readFile o.WriteInputFile] else [])
      = [] := by
    split_ifs <;> rfl
  refine ⟨by simp [hw],
    by rw [hw]; simp only [sent_append, hsv, hsl, hsn, hs4, List.append_nil], ?_⟩
  intro _ _ hmd _ hrf
  have he : err = "unsupported input/output combination" := herr hrf hmd
  subst he
  refine ⟨by simp [hw], by simp [hw, dialed_append, hdn], ?_⟩
  intro hf
  simp [hw, hf]

/-- Instance of the amended C9: input type `base64` with an input file in the
sample world. -/
theorem unsupported_combination_fails_without_send_witness :
    (¬(base64InputOptions.WriteInputType = "plain" ∧
          base64InputOptions.WriteOutputType = "plain") ∧
        ¬(base64InputOptions.WriteInputType = "jsonpb" ∧
          base64InputOptions.WriteOutputType = "protobuf")) ∧
      (Write sampleWorld base64InputOptions).2 ≠ none ∧
      sent (Write sampleWorld base64InputOptions).1 = [] ∧
      (Write sampleWorld base64InputOptions).2 =
        some "unable to generate write value: unsupported input/output combination" ∧
      dialed (Write sampleWorld base64InputOptions).1 = true ∧
      (base64InputOptions.WriteInputFile ≠ "" →
        .readFile base64InputOptions.WriteInputFile ∈ (Write sampleWorld base64InputOptions).1) :=
  ⟨by decide,
    (unsupported_combination_fails_without_send sampleWorld base64InputOptions
      (by decide) (by decide)).1,
    (unsupported_combination_fails_without_send sampleWorld base64InputOptions
      (by decide) (by decide)).2.1,
    (unsupported_combination_fails_without_send sampleWorld base64InputOptions
      (by decide) (by decide)).2.2 (by decide) (by decide) (by decide) (by decide) (by decide)⟩

/-! ## Consume side: one iteration -/

theorem iteration_message (E : Library) (o : ActiveMQOptions) (n : Nat) (lineNumber : Int)
    (body : Bytes) :
    (iteration E o n lineNumber (.message body none)).exit =
        (match verdict E o body with
          | .emitted _ => if o.ReadFollow = false then some (.returned none) else none
          | .failed _ fatal =>
            if o.ReadFollow = false then some (.returned (some fatal)) else none
          | .crashed => some .panicked) ∧
      (iteration E o n lineNumber (.message body none)).lineNumber =
        (match verdict E o body with
          | .emitted _ => if o.ReadLineNumbers then wrapInt64 (lineNumber + 1) else lineNumber
          | _ => lineNumber) ∧
      printed (iteration E o n lineNumber (.message body none)).events =
        (match verdict E o body with
          | .emitted data => [outputLine o lineNumber data]
          | _ => []) ∧
      reported (iteration E o n lineNumber (.message body none)).events =
        (match verdict E o body with
          | .failed report _ => if o.ReadFollow = false then [] else [report]
          | _ => []) ∧
      receiveCalls (iteration E o n lineNumber (.message body none)).events = 1 := by
  unfold verdict schemaStage iteration
  by_cases hp : o.ReadOutputType = "protobuf"
  · simp only [hp, if_true]
    rcases E.DecodeProtobufToJSON body with ⟨decoded, _ | err⟩
    · simp only [convertAndPrint]
      rcases convertSwitch E o decoded with ⟨data, _ | cerr⟩ | _
      · simp [printed, reported, receiveCalls, outputLine]
      · by_cases hf : o.ReadFollow = false <;> simp [printed, reported, receiveCalls, hf]
      · simp [printed, reported, receiveCalls]
    · by_cases hf : o.ReadFollow = false <;> simp [printed, reported, receiveCalls, hf]
  · simp only [hp, if_false]
    simp only [convertAndPrint]
    rcases convertSwitch E o body with ⟨data, _ | cerr⟩ | _
    · simp [printed, reported, receiveCalls, outputLine]
    · by_cases hf : o.ReadFollow = false <;> simp [printed, reported, receiveCalls, hf]
    · simp [printed, reported, receiveCalls]

/-! ## Consume side: the loop -/

theorem printed_append (s t : List Event) : printed (s ++ t) = printed s ++ printed t := by
  simp [printed, List.filterMap_append]

theorem reported_append (s t : List Event) : reported (s ++ t) = reported s ++ reported t := by
  simp [reported, List.filterMap_append]

theorem receiveCalls_append (s t : List Event) :
    receiveCalls (s ++ t) = receiveCalls s + receiveCalls t := by
  simp [receiveCalls, List.countP_append]

theorem readLoop_cons_exit (E : Library) (o : ActiveMQOptions) (d : Delivery)
    (rest : List Delivery) (n : Nat) (lineNumber : Int) (out : Outcome)
    (h : (iteration E o n lineNumber d).exit = some out) :
    readLoop E o (d :: rest) n lineNumber = ⟨(iteration E o n lineNumber d).events, out⟩ := by
  simp [readLoop, h]

theorem readLoop_cons_continue (E : Library) (o : ActiveMQOptions) (d : Delivery)
    (rest : List Delivery) (n : Nat) (lineNumber : Int)
    (h : (iteration E o n lineNumber d).exit = none) :
    readLoop E o (d :: rest) n lineNumber =
      ⟨(iteration E o n lineNumber d).events ++
          (readLoop E o rest (n + 1) (iteration E o n lineNumber d).lineNumber).trace,
        (readLoop E o rest (n + 1) (iteration E o n lineNumber d).lineNumber).outcome⟩ := by
  simp [readLoop, h, Run.after]

theorem follow_loop (E : Library) (o : ActiveMQOptions) (hf : o.ReadFollow = true)
    (bodies : List Bytes) :
    ∀ (n : Nat) (lineNumber : Int),
      List.Forall₂ (fun line data => ∃ k : Int, line = outputLine o k data)
          (printed (readLoop E o (bodies.map (fun b => .message b none)) n lineNumber).trace)
          ((bodies.takeWhile (returns E o)).filterMap (fun b => (verdict E o b).data?)) ∧
        reported (readLoop E o (bodies.map (fun b => .message b none)) n lineNumber).trace =
          (bodies.takeWhile (returns E o)).filterMap (fun b => (verdict E o b).report?) ∧
        receiveCalls (readLoop E o (bodies.map (fun b => .message b none)) n lineNumber).trace =
          (bodies.takeWhile (returns E o)).length + 1 ∧
        (readLoop E o (bodies.map (fun b => .message b none)) n lineNumber).outcome =
          (if bodies.all (returns E o) then .blocked else .panicked) := by
  induction bodies with
  | nil => intro n lineNumber; simp [readLoop, printed, reported, receiveCalls]
  | cons b bs ih =>
    intro n lineNumber
    obtain ⟨hexit, hln, hpr, hrep, hrc⟩ := iteration_message E o n lineNumber b
    rcases hv : verdict E o b with data | ⟨report, fatal⟩ | _
    · rw [hv] at hexit hln hpr hrep
      simp only [hf, Bool.true_eq_false, if_false] at hexit hrep
      obtain ⟨ih1, ih2, ih3, ih4⟩ :=
        ih (n + 1) (iteration E o n lineNumber (.message b none)).lineNumber
      have hr : returns E o b = true := by simp [returns, hv]
      rw [List.map_cons, readLoop_cons_continue E o _ _ n lineNumber hexit]
      simp only [printed_append, reported_append, receiveCalls_append, hpr, hrep, hrc,
        List.takeWhile_cons, hr, if_true, List.filterMap_cons, hv, Verdict.data?,
        Verdict.report?, List.all_cons, Bool.true_and, List.length_cons]
      refine ⟨?_, ?_, ?_, ih4⟩
      · exact List.Forall₂.cons ⟨lineNumber, rfl⟩ ih1
      · simpa using ih2
      · omega
    · rw [hv] at hexit hln hpr hrep
      simp only [hf, Bool.true_eq_false, if_false] at hexit hrep
      obtain ⟨ih1, ih2, ih3, ih4⟩ :=
        ih (n + 1) (iteration E o n lineNumber (.message b none)).lineNumber
      have hr : returns E o b = true := by simp [returns, hv]
      rw [List.map_cons, readLoop_cons_continue E o _ _ n lineNumber hexit]
      simp only [printed_append, reported_append, receiveCalls_append, hpr, hrep, hrc,
        List.takeWhile_cons, hr, if_true, List.filterMap_cons, hv, Verdict.data?,
        Verdict.report?, List.all_cons, Bool.true_and, List.length_cons]
      refine ⟨?_, ?_, ?_, ih4⟩
      · simpa using ih1
      · simpa using ih2
      · omega
    · rw [hv] at hexit hln hpr hrep
      have hr : returns E o b = false := by simp [returns, hv]
      rw [List.map_cons, readLoop_cons_exit E o _ _ n lineNumber _ hexit]
      simp [hpr, hrep, hrc, List.takeWhile_cons, hr]

theorem returns_of_not_base64 (E : Library) (o : ActiveMQOptions) (h : o.ReadConvert ≠ "base64")
    (body : Bytes) : returns E o body = true := by
  have hc : ∀ b, convertSwitch E o b ≠ .panicked := by
    intro b
    unfold convertSwitch
    simp only [h, if_false]
    split_ifs <;> simp
  unfold returns verdict
  rcases schemaStage E o body with ⟨b, _ | err⟩
  · simp only []
    rcases hcs : convertSwitch E o b with ⟨data, _ | cerr⟩ | _
    · simp
    · simp
    · exact absurd hcs (hc b)
  · simp

/-- Follow mode up to a panic. On deliveries that are all received and
accepted, a message whose protobuf decode or byte conversion returns an error
is reported and skipped, and the loop goes on. With `handled` the messages up
to the first one on which a library call panics (all of them unless
`ReadConvert` is `base64`): the printed lines are the converted bodies of the
handled messages that converted successfully, in receipt order, each behind
its line number when numbering is on; the reports are the errors of the
handled messages that failed, in order; every handled message is received;
and the run ends waiting in `Receive` for the next message, unless a panic
aborted it. -/
theorem follow_mode_reports_and_skips_failures (E : Library) (o : ActiveMQOptions)
    (bodies : List Bytes) (hf : o.ReadFollow = true) :
    List.Forall₂ (fun line data => ∃ k : Int, line = outputLine o k data)
        (printed (ActiveMQ.Read E o (bodies.map (fun b => .message b none))).trace)
        ((bodies.takeWhile (returns E o)).filterMap (fun b => (verdict E o b).data?)) ∧
      (o.ReadLineNumbers = false →
        printed (ActiveMQ.Read E o (bodies.map (fun b => .message b none))).trace =
          (bodies.takeWhile (returns E o)).filterMap (fun b => (verdict E o b).data?)) ∧
      reported (ActiveMQ.Read E o (bodies.map (fun b => .message b none))).trace =
        (bodies.takeWhile (returns E o)).filterMap (fun b => (verdict E o b).report?) ∧
      receiveCalls (ActiveMQ.Read E o (bodies.map (fun b => .message b none))).trace =
        (bodies.takeWhile (returns E o)).length + 1 ∧
      (ActiveMQ.Read E o (bodies.map (fun b => .message b none))).outcome =
        (if bodies.all (returns E o) then .blocked else .panicked) ∧
      (o.ReadConvert ≠ "base64" → bodies.takeWhile (returns E o) = bodies) := by
  obtain ⟨h1, h2, h3, h4⟩ := follow_loop E o hf bodies 0 1
  refine ⟨h1, ?_, h2, h3, h4, ?_⟩
  · intro hn
    have h1' := h1
    simp only [outputLine, hn, Bool.false_eq_true, if_false, exists_const] at h1'
    rw [List.forall₂_eq_eq_eq] at h1'
    exact h1'
  · intro hc
    rw [List.takeWhile_eq_self_iff]
    intro b _
    exact returns_of_not_base64 E o hc b

/-- Three messages of which the second fails the schema decode: the first and
the third are printed, one error is reported, and the loop waits for a
fourth. -/
theorem follow_mode_reports_and_skips_failures_witness :
    followProtobufOptions.ReadFollow = true ∧
      printed (ActiveMQ.Read sampleLibrary followProtobufOptions
        [.message [1] none, .message [0] none, .message [3] none]).trace =
        [[123, 1, 125], [123, 3, 125]] ∧
      reported (ActiveMQ.Read sampleLibrary followProtobufOptions
        [.message [1] none, .message [0] none, .message [3] none]).trace =
        ["unable to decode protobuf message: unexpected EOF"] ∧
      (ActiveMQ.Read sampleLibrary followProtobufOptions
        [.message [1] none, .message [0] none, .message [3] none]).outcome = .blocked :=
  ⟨rfl,
    ((follow_mode_reports_and_skips_failures sampleLibrary followProtobufOptions
      [[1], [0], [3]] rfl).2.1 (by decide)).trans (by decide),
    (follow_mode_reports_and_skips_failures sampleLibrary followProtobufOptions
      [[1], [0], [3]] rfl).2.2.1.trans (by decide),
    (follow_mode_reports_and_skips_failures sampleLibrary followProtobufOptions
      [[1], [0], [3]] rfl).2.2.2.2.1.trans (by decide)⟩

theorem iteration_exit_single_shot (E : Library) (o : ActiveMQOptions) (hf : o.ReadFollow = false)
    (n : Nat) (lineNumber : Int) (d : Delivery) :
    ∃ out, (iteration E o n lineNumber d).exit = some out := by
  rcases d with err | ⟨body, _ | err⟩
  · exact ⟨_, rfl⟩
  · rw [(iteration_message E o n lineNumber body).1]
    rcases verdict E o body with data | ⟨report, fatal⟩ | _ <;> simp [hf]
  · exact ⟨_, rfl⟩

theorem iteration_receiveCalls (E : Library) (o : ActiveMQOptions) (n : Nat) (lineNumber : Int)
    (d : Delivery) : receiveCalls (iteration E o n lineNumber d).events = 1 := by
  rcases d with err | ⟨body, _ | err⟩
  · rfl
  · exact (iteration_message E o n lineNumber body).2.2.2.2
  · rfl

/-- Single-shot mode up to a panic. `(*ActiveMQ).Read` calls `Receive` exactly
once, whatever the deliveries are, and handles only the first one. If that
message is accepted and converts successfully, exactly one line is printed and
nil is returned; if its protobuf decode or byte conversion returns an error,
an error is returned and nothing is printed or reported. -/
theorem single_shot_handles_one_message (E : Library) (o : ActiveMQOptions)
    (deliveries : List Delivery) (hf : o.ReadFollow = false) :
    receiveCalls (ActiveMQ.Read E o deliveries).trace = 1 ∧
      ActiveMQ.Read E o deliveries = ActiveMQ.Read E o (deliveries.take 1) ∧
      (∀ body rest, deliveries = .message body none :: rest →
        (∀ data, verdict E o body = .emitted data →
          printed (ActiveMQ.Read E o deliveries).trace = [outputLine o 1 data] ∧
            reported (ActiveMQ.Read E o deliveries).trace = [] ∧
            (ActiveMQ.Read E o deliveries).outcome = .returned none) ∧
        (∀ report fatal, verdict E o body = .failed report fatal →
          printed (ActiveMQ.Read E o deliveries).trace = [] ∧
            reported (ActiveMQ.Read E o deliveries).trace = [] ∧
            (ActiveMQ.Read E o deliveries).outcome = .returned (some fatal))) := by
  rcases deliveries with _ | ⟨d, rest⟩
  · refine ⟨rfl, rfl, ?_⟩
    intro body rest h
    simp at h
  · obtain ⟨out, hout⟩ := iteration_exit_single_shot E o hf 0 1 d
    have hr : ActiveMQ.Read E o (d :: rest) = ⟨(iteration E o 0 1 d).events, out⟩ :=
      readLoop_cons_exit E o d rest 0 1 out hout
    have hr1 : ActiveMQ.Read E o [d] = ⟨(iteration E o 0 1 d).events, out⟩ :=
      readLoop_cons_exit E o d [] 0 1 out hout
    refine ⟨?_, ?_, ?_⟩
    · rw [hr]; exact iteration_receiveCalls E o 0 1 d
    · rw [hr]; simpa using hr1.symm
    · intro body rest' h
      simp only [List.cons.injEq] at h
      obtain ⟨rfl, -⟩ := h
      obtain ⟨hexit, -, hpr, hrep, -⟩ := iteration_message E o 0 1 body
      rw [hr]
      constructor
      · intro data hv
        rw [hv] at hexit hpr hrep
        simp only [hf, if_true] at hexit
        rw [hout] at hexit
        simp only [Option.some.injEq] at hexit
        exact ⟨hpr, hrep, hexit⟩
      · intro report fatal hv
        rw [hv] at hexit hpr hrep
        simp only [hf, if_true] at hexit hrep
        rw [hout] at hexit
        simp only [Option.some.injEq] at hexit
        exact ⟨hpr, hrep, hexit⟩

/-- Two deliveries in single-shot mode: only the first is handled. -/
theorem single_shot_handles_one_message_witness :
    defaultOptions.ReadFollow = false ∧
      receiveCalls (ActiveMQ.Read sampleLibrary defaultOptions
        [.message [104, 105] none, .message [33] none]).trace = 1 ∧
      printed (ActiveMQ.Read sampleLibrary defaultOptions
        [.message [104, 105] none, .message [33] none]).trace = [[104, 105]] ∧
      (ActiveMQ.Read sampleLibrary defaultOptions
        [.message [104, 105] none, .message [33] none]).outcome = .returned none :=
  ⟨rfl,
    (single_shot_handles_one_message sampleLibrary defaultOptions
      [.message [104, 105] none, .message [33] none] rfl).1,
    (((single_shot_handles_one_message sampleLibrary defaultOptions
      [.message [104, 105] none, .message [33] none] rfl).2.2 [104, 105] [.message [33] none]
      rfl).1 [104, 105] (by decide)).1.trans (by decide),
    (((single_shot_handles_one_message sampleLibrary defaultOptions
      [.message [104, 105] none, .message [33] none] rfl).2.2 [104, 105] [.message [33] none]
      rfl).1 [104, 105] (by decide)).2.2⟩

theorem wrapInt64_of_range (x : Int) (h0 : 0 ≤ x) (h1 : x < 2 ^ 63) : wrapInt64 x = x := by
  unfold wrapInt64
  omega

theorem numbered_loop (E : Library) (o : ActiveMQOptions) (hn : o.ReadLineNumbers = true) :
    ∀ (ds : List Delivery) (n : Nat) (c : Int), 0 ≤ c → c + ds.length ≤ 2 ^ 63 →
      ∀ (k : Nat) (line : Bytes), (printed (readLoop E o ds n c).trace)[k]? = some line →
        ∃ data, (ds.filterMap (Delivery.data? E o))[k]? = some data ∧
          line = sprintfLineNumber (c + k) ++ data := by
  intro ds
  induction ds with
  | nil =>
    intro n c _ _ k line h
    simp [readLoop, printed] at h
  | cons d rest ih =>
    intro n c hc hb k line h
    simp only [List.length_cons, Nat.cast_add, Nat.cast_one] at hb
    rcases d with err | ⟨body, _ | err⟩
    · simp [readLoop, iteration, printed] at h
    · obtain ⟨hexit, hln, hpr, -, -⟩ := iteration_message E o n c body
      rcases hv : verdict E o body with data | ⟨report, fatal⟩ | _
      · rw [hv] at hexit hln hpr
        simp only [hn, if_true] at hln
        have hd : Delivery.data? E o (.message body none) = some data := by
          simp [Delivery.data?, hv, Verdict.data?]
        simp only [List.filterMap_cons, hd]
        have hline : outputLine o c data = sprintfLineNumber c ++ data := by
          simp [outputLine, hn]
        by_cases hf : o.ReadFollow = false
        · simp only [hf, if_true] at hexit
          rw [readLoop_cons_exit E o _ rest n c _ hexit] at h
          simp only [hpr] at h
          rcases k with _ | k
          · simp at h
            refine ⟨data, by simp, ?_⟩
            rw [← h, hline]; simp
          · simp at h
        · simp only [hf, if_false] at hexit
          rw [readLoop_cons_continue E o _ rest n c hexit] at h
          simp only [printed_append, hpr] at h
          rcases k with _ | k
          · simp at h
            refine ⟨data, by simp, ?_⟩
            rw [← h, hline]; simp
          · simp only [List.singleton_append, List.getElem?_cons_succ] at h
            rcases rest with _ | ⟨d', rest'⟩
            · simp [readLoop, printed] at h
            · simp only [List.length_cons, Nat.cast_add, Nat.cast_one] at hb
              rw [hln, wrapInt64_of_range (c + 1) (by omega) (by omega)] at h
              obtain ⟨data', h1, h2⟩ := ih (n + 1) (c + 1) (by omega)
                (by simp only [List.length_cons, Nat.cast_add, Nat.cast_one]; omega) k line h
              refine ⟨data', by simpa using h1, ?_⟩
              rw [h2]
              congr 2
              push_cast
              ring
      · rw [hv] at hexit hln hpr
        have hd : Delivery.data? E o (.message body none) = none := by
          simp [Delivery.data?, hv, Verdict.data?]
        simp only [List.filterMap_cons, hd]
        by_cases hf : o.ReadFollow = false
        · simp only [hf, if_true] at hexit
          rw [readLoop_cons_exit E o _ rest n c _ hexit] at h
          simp [hpr] at h
        · simp only [hf, if_false] at hexit
          rw [readLoop_cons_continue E o _ rest n c hexit, hln] at h
          simp only [printed_append, hpr, List.nil_append] at h
          exact ih (n + 1) c hc (by omega) k line h
      · rw [hv] at hexit hpr
        rw [readLoop_cons_exit E o _ rest n c _ hexit] at h
        simp [hpr] at h
    · simp [readLoop, iteration, printed] at h

/-- C4: with line numbering on, the k-th printed line, counting from 1, is the
text `k: ` followed by the converted body of the k-th message that was
received, accepted and converted successfully; a message whose decode or
conversion fails has no converted body, takes no number and leaves the
counter as it is. The counter is a Go `int`: the statement covers every run
of fewer than 2^63 deliveries, in which no printed number overflows. -/
theorem line_numbers_count_printed_lines (E : Library) (o : ActiveMQOptions)
    (deliveries : List Delivery) (hn : o.ReadLineNumbers = true)
    (hlen : deliveries.length < 2 ^ 63) :
    (∀ (k : Nat) (line : Bytes),
        (printed (ActiveMQ.Read E o deliveries).trace)[k]? = some line →
        ∃ data, (deliveries.filterMap (Delivery.data? E o))[k]? = some data ∧
          line = ascii (toString (k + 1)) ++ ascii ": " ++ data) ∧
      (∀ (n : Nat) (lineNumber : Int) (body : Bytes), (verdict E o body).data? = none →
        (iteration E o n lineNumber (.message body none)).lineNumber = lineNumber) := by
  constructor
  · intro k line hk
    have hb : (1 : Int) + deliveries.length ≤ 2 ^ 63 := by
      have : ((deliveries.length : Nat) : Int) < 2 ^ 63 := by exact_mod_cast hlen
      omega
    obtain ⟨data, h1, h2⟩ := numbered_loop E o hn deliveries 0 1 (by omega) hb k line hk
    refine ⟨data, h1, ?_⟩
    rw [h2, sprintfLineNumber]
    have : ((1 : Int) + (k : Int)) = ((k + 1 : Nat) : Int) := by push_cast; ring
    rw [this]
    rfl
  · intro n lineNumber body hv
    rw [(iteration_message E o n lineNumber body).2.1]
    rcases hvb : verdict E o body with data | ⟨report, fatal⟩ | _
    · rw [hvb] at hv; simp [Verdict.data?] at hv
    · rfl
    · rfl

/-- Instance of C4: of three messages the second is skipped, and the second
printed line is `2: ` followed by the third body. -/
theorem line_numbers_count_printed_lines_witness :
    (numberedFollowOptions.ReadLineNumbers = true ∧
        [Delivery.message [1] none, .message [0] none, .message [3] none].length < 2 ^ 63) ∧
      (printed (ActiveMQ.Read sampleLibrary numberedFollowOptions
        [.message [1] none, .message [0] none, .message [3] none]).trace)[1]? =
        some [50, 58, 32, 123, 3, 125] ∧
      ∃ data, ([Delivery.message [1] none, .message [0] none, .message [3] none].filterMap
          (Delivery.data? sampleLibrary numberedFollowOptions))[1]? = some data ∧
        [50, 58, 32, 123, 3, 125] = ascii (toString (1 + 1)) ++ ascii ": " ++ data :=
  ⟨⟨rfl, by decide⟩, by decide,
    (line_numbers_count_printed_lines sampleLibrary numberedFollowOptions
      [.message [1] none, .message [0] none, .message [3] none] rfl (by decide)).1 1
      [50, 58, 32, 123, 3, 125] (by decide)⟩

theorem iteration_exit_ne_blocked (E : Library) (o : ActiveMQOptions) (n : Nat)
    (lineNumber : Int) (d : Delivery) : (iteration E o n lineNumber d).exit ≠ some .blocked := by
  rcases d with err | ⟨body, _ | err⟩
  · simp [iteration]
  · rw [(iteration_message E o n lineNumber body).1]
    rcases verdict E o body with data | ⟨report, fatal⟩ | _ <;> split_ifs <;> simp
  · simp [iteration]

theorem readLoop_blocked (E : Library) (o : ActiveMQOptions) :
    ∀ (pre : List Delivery) (n : Nat) (lineNumber : Int),
      (readLoop E o pre n lineNumber).outcome = .blocked →
      ∃ (t : List Event) (lineNumber' : Int),
        (readLoop E o pre n lineNumber).trace = t ++ [.receive (n + pre.length)] ∧
          ∀ ds, readLoop E o (pre ++ ds) n lineNumber =
            (readLoop E o ds (n + pre.length) lineNumber').after t := by
  intro pre
  induction pre with
  | nil =>
    intro n lineNumber _
    exact ⟨[], lineNumber, by simp [readLoop], fun ds => by simp [Run.after]⟩
  | cons d rest ih =>
    intro n lineNumber h
    rcases hexit : (iteration E o n lineNumber d).exit with _ | out
    · rw [readLoop_cons_continue E o d rest n lineNumber hexit] at h
      obtain ⟨t, lineNumber', h1, h2⟩ :=
        ih (n + 1) (iteration E o n lineNumber d).lineNumber h
      refine ⟨(iteration E o n lineNumber d).events ++ t, lineNumber', ?_, ?_⟩
      · rw [readLoop_cons_continue E o d rest n lineNumber hexit]
        simp only [h1, List.length_cons, List.append_assoc]
        have : n + 1 + rest.length = n + (rest.length + 1) := by omega
        rw [this]
      · intro ds
        rw [List.cons_append, readLoop_cons_continue E o d (rest ++ ds) n lineNumber hexit, h2 ds]
        simp only [Run.after, List.length_cons, List.append_assoc]
        have : n + 1 + rest.length = n + (rest.length + 1) := by omega
        rw [this]
    · rw [readLoop_cons_exit E o d rest n lineNumber out hexit] at h
      simp only at h
      subst h
      exact absurd hexit (iteration_exit_ne_blocked E o n lineNumber d)

/-- C6: in either mode, when the run reaches a delivery whose `Receive` or
`Accept` returns an error, `(*ActiveMQ).Read` returns that error, wrapped, at
once. The trace is the one of a run whose deliveries stop before that message,
which ends with the `Receive` call in question, followed only by the `Accept`
call when it is `Accept` that fails: nothing is decoded, converted, printed
or reported for the message, and `Receive` is not called again. -/
theorem transport_error_ends_read (E : Library) (o : ActiveMQOptions)
    (pre rest : List Delivery) (hreach : (ActiveMQ.Read E o pre).outcome = .blocked) :
    (∃ t, (ActiveMQ.Read E o pre).trace = t ++ [.receive pre.length]) ∧
      (∀ err,
        (ActiveMQ.Read E o (pre ++ .receiveError err :: rest)).outcome =
            .returned (some ("unable to receive message: " ++ err)) ∧
          (ActiveMQ.Read E o (pre ++ .receiveError err :: rest)).trace =
            (ActiveMQ.Read E o pre).trace) ∧
      (∀ body err,
        (ActiveMQ.Read E o (pre ++ .message body (some err) :: rest)).outcome =
            .returned (some ("unable to accept message: " ++ err)) ∧
          (ActiveMQ.Read E o (pre ++ .message body (some err) :: rest)).trace =
            (ActiveMQ.Read E o pre).trace ++ [.accept pre.length]) := by
  obtain ⟨t, lineNumber', h1, h2⟩ := readLoop_blocked E o pre 0 1 hreach
  simp only [Nat.zero_add] at h1 h2
  refine ⟨⟨t, h1⟩, ?_, ?_⟩
  · intro err
    unfold ActiveMQ.Read
    rw [h2, h1]
    simp [readLoop, iteration, Run.after]
  · intro body err
    unfold ActiveMQ.Read
    rw [h2, h1]
    simp [readLoop, iteration, Run.after]

/-- Instance of C6: after one handled message the second delivery fails in
`Receive`, or in `Accept`. -/
theorem transport_error_ends_read_witness :
    (ActiveMQ.Read sampleLibrary followProtobufOptions [.message [1] none]).outcome = .blocked ∧
      (ActiveMQ.Read sampleLibrary followProtobufOptions
          [.message [1] none, .receiveError "link detached", .message [3] none]).outcome =
        .returned (some "unable to receive message: link detached") ∧
      printed (ActiveMQ.Read sampleLibrary followProtobufOptions
          [.message [1] none, .message [2] (some "link detached"), .message [3] none]).trace =
        [[123, 1, 125]] :=
  ⟨by decide,
    ((transport_error_ends_read sampleLibrary followProtobufOptions [.message [1] none]
      [.message [3] none] (by decide)).2.1 "link detached").1,
    (congrArg printed
      ((transport_error_ends_read sampleLibrary followProtobufOptions [.message [1] none]
        [.message [3] none] (by decide)).2.2 [2] "link detached").2).trans (by decide)⟩

/-! ## Consume side: where the events of a run come from -/

theorem convertAndPrint_events_mem (E : Library) (o : ActiveMQOptions) (n : Nat)
    (lineNumber : Int) (pre : List Event) (x : Bytes) (e : Event)
    (he : e ∈ (convertAndPrint E o n lineNumber pre x).events) :
    e ∈ pre ∨ e = .convert n x ∨
      (∃ data, e = .print n (outputLine o lineNumber data) ∧
        convertSwitch E o x = .done data none) ∨
      (∃ msg, e = .report n msg) := by
  unfold convertAndPrint at he
  rcases hc : convertSwitch E o x with ⟨data, _ | cerr⟩ | _
  · rw [hc] at he
    simp only [List.mem_append, List.mem_cons, List.mem_singleton, List.not_mem_nil,
      or_false] at he
    rcases he with he | he | he
    · exact Or.inl he
    · exact Or.inr (Or.inl he)
    · exact Or.inr (Or.inr (Or.inl ⟨data, he, rfl⟩))
  · rw [hc] at he
    by_cases hf : o.ReadFollow = false
    · simp only [hf, if_true, List.mem_append, List.mem_singleton] at he
      rcases he with he | he
      · exact Or.inl he
      · exact Or.inr (Or.inl he)
    · have hf' : o.ReadFollow = true := by simpa using hf
      simp only [hf', Bool.true_eq_false, if_false, List.mem_append, List.mem_cons,
        List.mem_singleton, List.not_mem_nil, or_false] at he
      rcases he with he | he | he
      · exact Or.inl he
      · exact Or.inr (Or.inl he)
      · exact Or.inr (Or.inr (Or.inr ⟨_, he⟩))
  · rw [hc] at he
    simp only [List.mem_append, List.mem_singleton] at he
    rcases he with he | he
    · exact Or.inl he
    · exact Or.inr (Or.inl he)

theorem iteration_events_mem (E : Library) (o : ActiveMQOptions) (n : Nat) (lineNumber : Int)
    (d : Delivery) (e : Event) (he : e ∈ (iteration E o n lineNumber d).events) :
    e = .receive n ∨ e = .accept n ∨
      ∃ body, d = .message body none ∧
        ((e = .decode n body ∧ o.ReadOutputType = "protobuf") ∨
          (∃ x, e = .convert n x ∧ schemaStage E o body = (x, none)) ∨
          (∃ x data, e = .print n (outputLine o lineNumber data) ∧
            schemaStage E o body = (x, none) ∧ convertSwitch E o x = .done data none) ∨
          (∃ msg, e = .report n msg)) := by
  rcases d with err | ⟨body, _ | err⟩
  · simp [iteration] at he
    exact Or.inl he
  · unfold iteration at he
    by_cases hp : o.ReadOutputType = "protobuf"
    · simp only [hp, if_true] at he
      rcases hd : E.DecodeProtobufToJSON body with ⟨decoded, _ | err⟩
      · rw [hd] at he
        have hS : schemaStage E o body = (decoded, none) := by simp [schemaStage, hp, hd]
        rcases convertAndPrint_events_mem E o n lineNumber _ decoded e he with h | h | h | h
        · simp only [List.mem_cons, List.mem_singleton, List.not_mem_nil, or_false] at h
          rcases h with h | h | h
          · exact Or.inl h
          · exact Or.inr (Or.inl h)
          · exact Or.inr (Or.inr ⟨body, rfl, Or.inl ⟨h, hp⟩⟩)
        · exact Or.inr (Or.inr ⟨body, rfl, Or.inr (Or.inl ⟨decoded, h, hS⟩)⟩)
        · obtain ⟨data, h1, h2⟩ := h
          exact Or.inr (Or.inr ⟨body, rfl, Or.inr (Or.inr (Or.inl ⟨decoded, data, h1, hS, h2⟩))⟩)
        · exact Or.inr (Or.inr ⟨body, rfl, Or.inr (Or.inr (Or.inr h))⟩)
      · rw [hd] at he
        by_cases hf : o.ReadFollow = false
        · simp only [hf, if_true, List.mem_cons, List.mem_singleton, List.not_mem_nil,
            or_false] at he
          rcases he with h | h | h
          · exact Or.inl h
          · exact Or.inr (Or.inl h)
          · exact Or.inr (Or.inr ⟨body, rfl, Or.inl ⟨h, hp⟩⟩)
        · have hf' : o.ReadFollow = true := by simpa using hf
          simp only [hf', Bool.true_eq_false, if_false, List.mem_cons, List.mem_singleton,
            List.not_mem_nil, or_false] at he
          rcases he with h | h | h | h
          · exact Or.inl h
          · exact Or.inr (Or.inl h)
          · exact Or.inr (Or.inr ⟨body, rfl, Or.inl ⟨h, hp⟩⟩)
          · exact Or.inr (Or.inr ⟨body, rfl, Or.inr (Or.inr (Or.inr ⟨_, h⟩))⟩)
    · simp only [hp, if_false] at he
      have hS : schemaStage E o body = (body, none) := by simp [schemaStage, hp]
      rcases convertAndPrint_events_mem E o n lineNumber _ body e he with h | h | h | h
      · simp only [List.mem_cons, List.mem_singleton, List.not_mem_nil, or_false] at h
        rcases h with h | h
        · exact Or.inl h
        · exact Or.inr (Or.inl h)
      · exact Or.inr (Or.inr ⟨body, rfl, Or.inr (Or.inl ⟨body, h, hS⟩)⟩)
      · obtain ⟨data, h1, h2⟩ := h
        exact Or.inr (Or.inr ⟨body, rfl, Or.inr (Or.inr (Or.inl ⟨body, data, h1, hS, h2⟩))⟩)
      · exact Or.inr (Or.inr ⟨body, rfl, Or.inr (Or.inr (Or.inr h))⟩)
  · simp [iteration] at he
    rcases he with he | he
    · exact Or.inl he
    · exact Or.inr (Or.inl he)

theorem readLoop_events_mem (E : Library) (o : ActiveMQOptions) :
    ∀ (ds : List Delivery) (n : Nat) (lineNumber : Int) (e : Event),
      e ∈ (readLoop E o ds n lineNumber).trace →
      e = .receive (n + ds.length) ∨
        ∃ (i : Nat) (d : Delivery) (lineNumber' : Int),
          ds[i]? = some d ∧ e ∈ (iteration E o (n + i) lineNumber' d).events := by
  intro ds
  induction ds with
  | nil =>
    intro n lineNumber e he
    simp [readLoop] at he
    exact Or.inl (by simpa using he)
  | cons d rest ih =>
    intro n lineNumber e he
    have hhere : e ∈ (iteration E o n lineNumber d).events →
        ∃ (i : Nat) (d' : Delivery) (lineNumber' : Int),
          (d :: rest)[i]? = some d' ∧ e ∈ (iteration E o (n + i) lineNumber' d').events :=
      fun h => ⟨0, d, lineNumber, by simp, by simpa using h⟩
    rcases hexit : (iteration E o n lineNumber d).exit with _ | out
    · rw [readLoop_cons_continue E o d rest n lineNumber hexit] at he
      simp only [List.mem_append] at he
      rcases he with he | he
      · exact Or.inr (hhere he)
      · rcases ih (n + 1) _ e he with h | ⟨i, d', lineNumber', h1, h2⟩
        · left
          rw [h, List.length_cons]
          congr 1
          omega
        · right
          refine ⟨i + 1, d', lineNumber', by simpa using h1, ?_⟩
          have : n + (i + 1) = n + 1 + i := by omega
          rw [this]
          exact h2
    · rw [readLoop_cons_exit E o d rest n lineNumber out hexit] at he
      exact Or.inr (hhere he)

theorem schemaStage_eq (E : Library) (o : ActiveMQOptions) (body x : Bytes)
    (h : schemaStage E o body = (x, none)) :
    if o.ReadOutputType = "protobuf" then E.DecodeProtobufToJSON body = (x, none)
    else x = body := by
  unfold schemaStage at h
  split_ifs at h ⊢
  · exact h
  · simp at h
    exact h.symm

theorem convert_mem_run (E : Library) (o : ActiveMQOptions) (ds : List Delivery) (n : Nat)
    (x : Bytes) (h : .convert n x ∈ (ActiveMQ.Read E o ds).trace) :
    ∃ body, ds[n]? = some (.message body none) ∧ schemaStage E o body = (x, none) := by
  rcases readLoop_events_mem E o ds 0 1 _ h with h | ⟨i, d, lineNumber', h1, h2⟩
  · simp at h
  · rcases iteration_events_mem E o _ lineNumber' d _ h2 with h | h | ⟨body, rfl, h | h | h | h⟩
    · simp at h
    · simp at h
    · simp at h
    · obtain ⟨x', h3, h4⟩ := h
      simp only [Event.convert.injEq, Nat.zero_add] at h3
      obtain ⟨rfl, rfl⟩ := h3
      exact ⟨body, h1, h4⟩
    · obtain ⟨x', data, h3, -⟩ := h
      simp at h3
    · obtain ⟨msg, h3⟩ := h
      simp at h3

theorem print_mem_run (E : Library) (o : ActiveMQOptions) (ds : List Delivery) (n : Nat)
    (s : Bytes) (h : .print n s ∈ (ActiveMQ.Read E o ds).trace) :
    ∃ body x data k, ds[n]? = some (.message body none) ∧ schemaStage E o body = (x, none) ∧
      convertSwitch E o x = .done data none ∧ s = outputLine o k data := by
  rcases readLoop_events_mem E o ds 0 1 _ h with h | ⟨i, d, lineNumber', h1, h2⟩
  · simp at h
  · rcases iteration_events_mem E o _ lineNumber' d _ h2 with h | h | ⟨body, rfl, h | h | h | h⟩
    · simp at h
    · simp at h
    · simp at h
    · obtain ⟨x', h3, -⟩ := h
      simp at h3
    · obtain ⟨x', data, h3, h4, h5⟩ := h
      simp only [Event.print.injEq, Nat.zero_add] at h3
      obtain ⟨rfl, rfl⟩ := h3
      exact ⟨body, x', data, lineNumber', h1, h4, h5, rfl⟩
    · obtain ⟨msg, h3⟩ := h
      simp at h3

theorem decode_mem_run (E : Library) (o : ActiveMQOptions) (ds : List Delivery) (n : Nat)
    (b : Bytes) (h : .decode n b ∈ (ActiveMQ.Read E o ds).trace) :
    o.ReadOutputType = "protobuf" ∧ ds[n]? = some (.message b none) := by
  rcases readLoop_events_mem E o ds 0 1 _ h with h | ⟨i, d, lineNumber', h1, h2⟩
  · simp at h
  · rcases iteration_events_mem E o _ lineNumber' d _ h2 with h | h | ⟨body, rfl, h | h | h | h⟩
    · simp at h
    · simp at h
    · obtain ⟨h3, h4⟩ := h
      simp only [Event.decode.injEq, Nat.zero_add] at h3
      obtain ⟨rfl, rfl⟩ := h3
      exact ⟨h4, h1⟩
    · obtain ⟨x', h3, -⟩ := h
      simp at h3
    · obtain ⟨x', data, h3, -⟩ := h
      simp at h3
    · obtain ⟨msg, h3⟩ := h
      simp at h3

theorem schemaStage_of (E : Library) (o : ActiveMQOptions) (body x : Bytes)
    (h : if o.ReadOutputType = "protobuf" then E.DecodeProtobufToJSON body = (x, none)
      else x = body) :
    schemaStage E o body = (x, none) := by
  unfold schemaStage
  split_ifs at h ⊢
  · exact h
  · rw [h]

theorem convertSwitch_done (E : Library) (o : ActiveMQOptions) (x data : Bytes)
    (h : convertSwitch E o x = .done data none) :
    if o.ReadConvert = "base64" then
      (∃ m, E.base64Decode [] x = .returned m none) ∧ data = []
    else if o.ReadConvert = "gzip" then (E.Gunzip x).2 = none ∧ data = (E.Gunzip x).1
    else data = x := by
  unfold convertSwitch at h
  by_cases hb : o.ReadConvert = "base64"
  · simp only [hb, if_true] at h ⊢
    rcases hd : E.base64Decode [] x with ⟨m, err⟩ | _
    · rw [hd] at h
      injection h with h1 h2
      subst h2
      exact ⟨⟨m, rfl⟩, h1.symm⟩
    · rw [hd] at h
      exact absurd h (by simp)
  · simp only [hb, if_false] at h ⊢
    by_cases hg : o.ReadConvert = "gzip"
    · simp only [hg, if_true] at h ⊢
      injection h with h1 h2
      exact ⟨h2, h1.symm⟩
    · simp only [hg, if_false] at h ⊢
      injection h with h1 _
      exact h1.symm

theorem read_one_printed (E : Library) (o : ActiveMQOptions) (body x data : Bytes)
    (hs : schemaStage E o body = (x, none)) (hc : convertSwitch E o x = .done data none) :
    printed (ActiveMQ.Read E o [.message body none]).trace = [outputLine o 1 data] := by
  have hv : verdict E o body = .emitted data := by
    unfold verdict
    rw [hs]
    simp only [hc]
  obtain ⟨hexit, -, hpr, -, -⟩ := iteration_message E o 0 1 body
  rw [hv] at hexit hpr
  unfold ActiveMQ.Read
  rcases hx : (iteration E o 0 1 (.message body none)).exit with _ | out
  · rw [readLoop_cons_continue E o _ [] 0 1 hx]
    simp only [printed_append, hpr]
    simp [readLoop, printed]
  · rw [readLoop_cons_exit E o _ [] 0 1 out hx]
    exact hpr

theorem read_one_not_printed (E : Library) (o : ActiveMQOptions) (body x data : Bytes)
    (err : GoError) (hs : schemaStage E o body = (x, none))
    (hc : convertSwitch E o x = .done data (some err)) :
    printed (ActiveMQ.Read E o [.message body none]).trace = [] := by
  have hv : verdict E o body =
      .failed ("unable to complete conversion for message: " ++ err)
        ("unable to complete conversion: " ++ err) := by
    unfold verdict
    rw [hs]
    simp only [hc]
  obtain ⟨hexit, -, hpr, -, -⟩ := iteration_message E o 0 1 body
  rw [hv] at hexit hpr
  unfold ActiveMQ.Read
  rcases hx : (iteration E o 0 1 (.message body none)).exit with _ | out
  · rw [readLoop_cons_continue E o _ [] 0 1 hx]
    simp only [printed_append, hpr]
    simp [readLoop, printed]
  · rw [readLoop_cons_exit E o _ [] 0 1 out hx]
    exact hpr

/-- C5: in every run of the consume loop the configured byte transform works
on the text returned by the schema decode when `ReadOutputType` is `protobuf`,
and on the received body otherwise. With `x` that input for message `n`: a line
printed for the message is the line of `util.Gunzip(x)` when `ReadConvert` is
`gzip` and the call returns no error, the line of `x` itself when no
conversion is configured, and, when `ReadConvert` is `base64`, the line of the
`data` left by the call `Decode(data, x)` that returned no error. The schema
decode is called only when `protobuf` is selected, on the received body; when
it fails, no conversion is entered and nothing is printed for the message. On
a run of one message the transform of that input decides what is printed:
the gunzipped text, nothing when gunzip fails, or the input itself. -/
theorem byte_conversion_follows_schema_decode (E : Library) (o : ActiveMQOptions)
    (ds : List Delivery) :
    (∀ n x, .convert n x ∈ (ActiveMQ.Read E o ds).trace →
        ∃ body, ds[n]? = some (.message body none) ∧
          if o.ReadOutputType = "protobuf" then E.DecodeProtobufToJSON body = (x, none)
          else x = body) ∧
      (∀ n s, .print n s ∈ (ActiveMQ.Read E o ds).trace →
        ∃ body x data k, ds[n]? = some (.message body none) ∧
          (if o.ReadOutputType = "protobuf" then E.DecodeProtobufToJSON body = (x, none)
            else x = body) ∧
          convertSwitch E o x = .done data none ∧ s = outputLine o k data ∧
          (if o.ReadConvert = "base64" then
            (∃ m, E.base64Decode [] x = .returned m none) ∧ s = outputLine o k []
          else if o.ReadConvert = "gzip" then
            (E.Gunzip x).2 = none ∧ s = outputLine o k (E.Gunzip x).1
          else s = outputLine o k x)) ∧
      (∀ n b, .decode n b ∈ (ActiveMQ.Read E o ds).trace →
        o.ReadOutputType = "protobuf" ∧ ds[n]? = some (.message b none)) ∧
      (∀ n body, ds[n]? = some (.message body none) → o.ReadOutputType = "protobuf" →
        (E.DecodeProtobufToJSON body).2 ≠ none →
        (∀ x, .convert n x ∉ (ActiveMQ.Read E o ds).trace) ∧
          (∀ s, .print n s ∉ (ActiveMQ.Read E o ds).trace)) ∧
      (∀ body decoded, o.ReadOutputType = "protobuf" →
        E.DecodeProtobufToJSON body = (decoded, none) →
        ∃ t, (ActiveMQ.Read E o [.message body none]).trace =
          [.receive 0, .accept 0, .decode 0 body, .convert 0 decoded] ++ t) ∧
      (∀ body, o.ReadOutputType ≠ "protobuf" →
        ∃ t, (ActiveMQ.Read E o [.message body none]).trace =
          [.receive 0, .accept 0, .convert 0 body] ++ t) ∧
      (∀ body x,
        (if o.ReadOutputType = "protobuf" then E.DecodeProtobufToJSON body = (x, none)
          else x = body) →
        (o.ReadConvert = "gzip" → (E.Gunzip x).2 = none →
          printed (ActiveMQ.Read E o [.message body none]).trace =
            [outputLine o 1 (E.Gunzip x).1]) ∧
        (o.ReadConvert = "gzip" → (E.Gunzip x).2 ≠ none →
          printed (ActiveMQ.Read E o [.message body none]).trace = []) ∧
        (o.ReadConvert = "base64" → ∀ m, E.base64Decode [] x = .returned m none →
          printed (ActiveMQ.Read E o [.message body none]).trace = [outputLine o 1 []]) ∧
        (o.ReadConvert ≠ "base64" → o.ReadConvert ≠ "gzip" →
          printed (ActiveMQ.Read E o [.message body none]).trace = [outputLine o 1 x])) := by
  refine ⟨?_, ?_, ?_, ?_, ?_, ?_, ?_⟩
  · intro n x h
    obtain ⟨body, h1, h2⟩ := convert_mem_run E o ds n x h
    exact ⟨body, h1, schemaStage_eq E o body x h2⟩
  · intro n s h
    obtain ⟨body, x, data, k, h1, h2, h3, h4⟩ := print_mem_run E o ds n s h
    refine ⟨body, x, data, k, h1, schemaStage_eq E o body x h2, h3, h4, ?_⟩
    have hd := convertSwitch_done E o x data h3
    by_cases hb : o.ReadConvert = "base64"
    · simp only [hb, if_true] at hd ⊢
      exact ⟨hd.1, by rw [h4, hd.2]⟩
    · simp only [hb, if_false] at hd ⊢
      by_cases hg : o.ReadConvert = "gzip"
      · simp only [hg, if_true] at hd ⊢
        exact ⟨hd.1, by rw [h4, hd.2]⟩
      · simp only [hg, if_false] at hd ⊢
        rw [h4, hd]
  · intro n b h
    exact decode_mem_run E o ds n b h
  · intro n body hn hp hd
    constructor
    · intro x h
      obtain ⟨body', h1, h2⟩ := convert_mem_run E o ds n x h
      rw [hn] at h1
      simp only [Option.some.injEq, Delivery.message.injEq, and_true] at h1
      subst h1
      have := schemaStage_eq E o body x h2
      rw [if_pos hp] at this
      rw [this] at hd
      exact hd rfl
    · intro s h
      obtain ⟨body', x, data, k, h1, h2, -, -⟩ := print_mem_run E o ds n s h
      rw [hn] at h1
      simp only [Option.some.injEq, Delivery.message.injEq, and_true] at h1
      subst h1
      have := schemaStage_eq E o body x h2
      rw [if_pos hp] at this
      rw [this] at hd
      exact hd rfl
  · intro body decoded hp hd
    unfold ActiveMQ.Read readLoop
    simp only [iteration, hp, if_true, hd, convertAndPrint]
    rcases convertSwitch E o decoded with ⟨data, _ | cerr⟩ | _
    · by_cases hf : o.ReadFollow = false <;> simp [hf, Run.after, readLoop]
    · by_cases hf : o.ReadFollow = false <;> simp [hf, Run.after, readLoop]
    · simp
  · intro body hp
    unfold ActiveMQ.Read readLoop
    simp only [iteration, hp, if_false, convertAndPrint]
    rcases convertSwitch E o body with ⟨data, _ | cerr⟩ | _
    · by_cases hf : o.ReadFollow = false <;> simp [hf, Run.after, readLoop]
    · by_cases hf : o.ReadFollow = false <;> simp [hf, Run.after, readLoop]
    · simp
  · intro body x hx
    have hs := schemaStage_of E o body x hx
    refine ⟨?_, ?_, ?_, ?_⟩
    · intro hg herr
      have hb : o.ReadConvert ≠ "base64" := by rw [hg]; decide
      apply read_one_printed E o body x _ hs
      unfold convertSwitch
      rw [if_neg hb, if_pos hg, herr]
    · intro hg herr
      have hb : o.ReadConvert ≠ "base64" := by rw [hg]; decide
      rcases he : (E.Gunzip x).2 with _ | err
      · exact absurd he herr
      · apply read_one_not_printed E o body x (E.Gunzip x).1 err hs
        unfold convertSwitch
        rw [if_neg hb, if_pos hg, he]
    · intro hb m hm
      apply read_one_printed E o body x _ hs
      unfold convertSwitch
      simp only [hb, if_true, hm]
    · intro hb hg
      apply read_one_printed E o body x _ hs
      unfold convertSwitch
      simp only [hb, if_false, hg]

theorem convertSwitch_base64 (E : Library) (o : ActiveMQOptions) (hc : o.ReadConvert = "base64")
    (x data : Bytes) (h : convertSwitch E o x = .done data none) : data = [] := by
  unfold convertSwitch at h
  simp only [hc, if_true] at h
  rcases hb : E.base64Decode [] x with ⟨m, err⟩ | _
  · rw [hb] at h
    injection h with h1 _
    exact h1.symm
  · rw [hb] at h
    exact absurd h (by simp)

theorem verdict_emitted (E : Library) (o : ActiveMQOptions) (body data : Bytes)
    (h : verdict E o body = .emitted data) :
    ∃ x, schemaStage E o body = (x, none) ∧ convertSwitch E o x = .done data none := by
  unfold verdict at h
  rcases hs : schemaStage E o body with ⟨x, _ | err⟩
  · rw [hs] at h
    simp only at h
    rcases hc : convertSwitch E o x with ⟨data', _ | cerr⟩ | _
    · rw [hc] at h
      simp only [Verdict.emitted.injEq] at h
      exact ⟨x, rfl, by rw [hc, h]⟩
    · rw [hc] at h; simp at h
    · rw [hc] at h; simp at h
  · rw [hs] at h; simp at h

/-- C3 fails on the code. The body `aGk=` is valid standard base64 for `hi`,
but whatever the library decoder does, a single-shot run with base64
conversion prints either nothing or one empty line for it; and in every run
with `ReadConvert = "base64"` each printed line is the line of the empty
body, because the `base64` case decodes into the nil slice `data` and never
assigns it. -/
theorem base64_line_is_not_the_decoded_body (E : Library) :
    referenceBase64 (ascii "aGk=") = some (ascii "hi") ∧
      (printed (ActiveMQ.Read E base64Options [.message (ascii "aGk=") none]).trace = [] ∨
        printed (ActiveMQ.Read E base64Options [.message (ascii "aGk=") none]).trace = [[]]) ∧
      (∀ (o : ActiveMQOptions) (ds : List Delivery), o.ReadConvert = "base64" →
        ∀ n s, .print n s ∈ (ActiveMQ.Read E o ds).trace → ∃ k, s = outputLine o k []) := by
  refine ⟨by decide, ?_, ?_⟩
  · obtain ⟨out, hout⟩ :=
      iteration_exit_single_shot E base64Options rfl 0 1 (.message (ascii "aGk=") none)
    have hr : ActiveMQ.Read E base64Options [.message (ascii "aGk=") none] =
        ⟨(iteration E base64Options 0 1 (.message (ascii "aGk=") none)).events, out⟩ :=
      readLoop_cons_exit E base64Options _ [] 0 1 out hout
    have hpr := (iteration_message E base64Options 0 1 (ascii "aGk=")).2.2.1
    rw [hr]
    simp only [hpr]
    rcases hv : verdict E base64Options (ascii "aGk=") with data | ⟨report, fatal⟩ | _
    · obtain ⟨x, -, hx⟩ := verdict_emitted E base64Options _ data hv
      have := convertSwitch_base64 E base64Options rfl x data hx
      subst this
      exact Or.inr rfl
    · exact Or.inl rfl
    · exact Or.inl rfl
  · intro o ds hc n s h
    obtain ⟨body, x, data, k, -, -, h3, h4⟩ := print_mem_run E o ds n s h
    have := convertSwitch_base64 E o hc x data h3
    subst this
    exact ⟨k, h4⟩

theorem convertAndPrint_events_append (E : Library) (o : ActiveMQOptions) (n : Nat)
    (lineNumber : Int) (pre : List Event) (x : Bytes) :
    ∃ t, (convertAndPrint E o n lineNumber pre x).events = pre ++ t := by
  unfold convertAndPrint
  rcases convertSwitch E o x with ⟨data, _ | cerr⟩ | _
  · exact ⟨_, rfl⟩
  · by_cases hf : o.ReadFollow = false
    · simp only [hf, if_true]; exact ⟨_, rfl⟩
    · have hf' : o.ReadFollow = true := by simpa using hf
      simp only [hf', Bool.true_eq_false, if_false]; exact ⟨_, rfl⟩
  · exact ⟨_, rfl⟩

theorem iteration_events_shape (E : Library) (o : ActiveMQOptions) (n : Nat) (lineNumber : Int)
    (d : Delivery) :
    (iteration E o n lineNumber d).events = [.receive n] ∨
      ∃ tail, (iteration E o n lineNumber d).events = .receive n :: .accept n :: tail := by
  rcases d with err | ⟨body, _ | err⟩
  · exact Or.inl rfl
  · right
    unfold iteration
    by_cases hp : o.ReadOutputType = "protobuf"
    · simp only [hp, if_true]
      rcases E.DecodeProtobufToJSON body with ⟨decoded, _ | err⟩
      · obtain ⟨t, ht⟩ := convertAndPrint_events_append E o n lineNumber
          [.receive n, .accept n, .decode n body] decoded
        exact ⟨_, by simp only [ht]; rfl⟩
      · by_cases hf : o.ReadFollow = false
        · simp only [hf, if_true]; exact ⟨_, rfl⟩
        · have hf' : o.ReadFollow = true := by simpa using hf
          simp only [hf', Bool.true_eq_false, if_false]; exact ⟨_, rfl⟩
    · simp only [hp, if_false]
      obtain ⟨t, ht⟩ := convertAndPrint_events_append E o n lineNumber
        [.receive n, .accept n] body
      exact ⟨_, by simp only [ht]; rfl⟩
  · exact Or.inr ⟨[], rfl⟩

theorem iteration_events_index (E : Library) (o : ActiveMQOptions) (n : Nat) (lineNumber : Int)
    (d : Delivery) (e : Event) (he : e ∈ (iteration E o n lineNumber d).events) :
    e.index = n := by
  rcases iteration_events_mem E o n lineNumber d e he with h | h | ⟨body, -, h | h | h | h⟩
  · rw [h]; rfl
  · rw [h]; rfl
  · rw [h.1]; rfl
  · obtain ⟨x, h, -⟩ := h; rw [h]; rfl
  · obtain ⟨x, data, h, -⟩ := h; rw [h]; rfl
  · obtain ⟨msg, h⟩ := h; rw [h]; rfl

theorem iteration_accept_first (E : Library) (o : ActiveMQOptions) (n : Nat) (lineNumber : Int)
    (d : Delivery) (t1 t2 : List Event) (e : Event)
    (h : (iteration E o n lineNumber d).events = t1 ++ e :: t2) (hp : e.processes = true) :
    .accept e.index ∈ t1 := by
  have hidx : e.index = n :=
    iteration_events_index E o n lineNumber d e (by rw [h]; simp)
  rcases iteration_events_shape E o n lineNumber d with hs | ⟨tail, hs⟩
  · rw [hs] at h
    rcases t1 with _ | ⟨a, t1⟩
    · simp only [List.nil_append, List.cons.injEq] at h
      rw [← h.1] at hp
      simp [Event.processes] at hp
    · simp at h
  · rw [hs] at h
    rcases t1 with _ | ⟨a, _ | ⟨b, t1⟩⟩
    · simp only [List.nil_append, List.cons.injEq] at h
      rw [← h.1] at hp
      simp [Event.processes] at hp
    · simp only [List.cons_append, List.nil_append, List.cons.injEq] at h
      rw [← h.2.1] at hp
      simp [Event.processes] at hp
    · simp only [List.cons_append, List.cons.injEq] at h
      rw [hidx, ← h.2.1]
      simp

theorem readLoop_accept_first (E : Library) (o : ActiveMQOptions) :
    ∀ (ds : List Delivery) (n : Nat) (lineNumber : Int) (t1 t2 : List Event) (e : Event),
      (readLoop E o ds n lineNumber).trace = t1 ++ e :: t2 → e.processes = true →
      .accept e.index ∈ t1 := by
  intro ds
  induction ds with
  | nil =>
    intro n lineNumber t1 t2 e h hp
    rcases t1 with _ | ⟨a, t1⟩
    · simp only [readLoop, List.nil_append, List.cons.injEq] at h
      rw [← h.1] at hp
      simp [Event.processes] at hp
    · simp [readLoop] at h
  | cons d rest ih =>
    intro n lineNumber t1 t2 e h hp
    rcases hexit : (iteration E o n lineNumber d).exit with _ | out
    · rw [readLoop_cons_continue E o d rest n lineNumber hexit] at h
      simp only at h
      rcases List.append_eq_append_iff.mp h with ⟨a', h1, h2⟩ | ⟨c', h1, h2⟩
      · have := ih _ _ a' t2 e h2 hp
        rw [h1]
        exact List.mem_append_right _ this
      · rcases c' with _ | ⟨c, c'⟩
        · simp only [List.nil_append] at h2
          have := ih _ _ [] t2 e (by simpa using h2.symm) hp
          simp at this
        · simp only [List.cons_append, List.cons.injEq] at h2
          obtain ⟨rfl, -⟩ := h2
          exact iteration_accept_first E o n lineNumber d t1 c' e h1 hp
    · rw [readLoop_cons_exit E o d rest n lineNumber out hexit] at h
      exact iteration_accept_first E o n lineNumber d t1 t2 e h hp

/-- C10, as stated, fails: in the run on one message the `Accept` call is the
second event, before the schema decode and the byte conversion of the body. -/
theorem accept_precedes_processing :
    (ActiveMQ.Read sampleLibrary followProtobufOptions [.message [1] none]).trace =
        [.receive 0, .accept 0, .decode 0 [1], .convert 0 [123, 1, 125],
          .print 0 [123, 1, 125], .receive 1] ∧
      List.indexOf (Event.accept 0)
          (ActiveMQ.Read sampleLibrary followProtobufOptions [.message [1] none]).trace <
        List.indexOf (Event.decode 0 [1])
          (ActiveMQ.Read sampleLibrary followProtobufOptions [.message [1] none]).trace := by
  decide

/-- C10, amended: in the consume loop a message is acknowledged right after it
is received and before it is processed. In every run, whenever an event that
processes message `n` (its schema decode, byte conversion, print or error
report) occurs, the call `Accept` for message `n` has already been made. -/
theorem message_accepted_before_processing (E : Library) (o : ActiveMQOptions)
    (ds : List Delivery) (t1 t2 : List Event) (e : Event)
    (h : (ActiveMQ.Read E o ds).trace = t1 ++ e :: t2) (hp : e.processes = true) :
    .accept e.index ∈ t1 :=
  readLoop_accept_first E o ds 0 1 t1 t2 e h hp

/-- Instance of the amended C10: the decode of message 0 comes after its accept. -/
theorem message_accepted_before_processing_witness :
    ((ActiveMQ.Read sampleLibrary followProtobufOptions [.message [1] none]).trace =
        [.receive 0, .accept 0] ++ .decode 0 [1] ::
          [.convert 0 [123, 1, 125], .print 0 [123, 1, 125], .receive 1] ∧
      (Event.decode 0 [1]).processes = true) ∧
      Event.accept (Event.decode 0 [1]).index ∈ [Event.receive 0, Event.accept 0] :=
  ⟨⟨by decide, rfl⟩,
    message_accepted_before_processing sampleLibrary followProtobufOptions [.message [1] none]
      [.receive 0, .accept 0] [.convert 0 [123, 1, 125], .print 0 [123, 1, 125], .receive 1]
      (.decode 0 [1]) (by decide) rfl⟩

/-! ## Consume side: a panic in the base64 conversion -/

theorem base64_panic_ends_run (E : Library) (o : ActiveMQOptions)
    (hc : o.ReadConvert = "base64") (hpb : o.ReadOutputType ≠ "protobuf") (body : Bytes)
    (rest : List Delivery) (hp : E.base64Decode [] body = .panicked) :
    ActiveMQ.Read E o (.message body none :: rest) =
      ⟨[.receive 0, .accept 0, .convert 0 body], .panicked⟩ := by
  have hcs : convertSwitch E o body = .panicked := by
    unfold convertSwitch
    simp only [hc, if_true, hp]
  have hit : iteration E o 0 1 (.message body none) =
      ⟨[.receive 0, .accept 0, .convert 0 body], 1, some .panicked⟩ := by
    unfold iteration
    simp only [hpb, if_false, convertAndPrint, hcs]
    rfl
  have hx : (iteration E o 0 1 (.message body none)).exit = some .panicked := by rw [hit]
  unfold ActiveMQ.Read
  rw [readLoop_cons_exit E o _ rest 0 1 _ hx, hit]

/-- C1 fails on the code, by the defect of C3. In follow mode with base64
conversion the body `aGk=` is handed to `Decode(data, body)` with `data` nil.
When that call panics, as Go's decoder does writing into the empty
destination, the failed conversion is not reported and it ends the loop: the
run is receive, accept, the conversion, and then the panic, with nothing
printed, nothing reported and a single `Receive` call, whatever messages are
still to come. -/
theorem follow_mode_base64_panic_ends_loop (E : Library) (rest : List Delivery)
    (hp : E.base64Decode [] (ascii "aGk=") = .panicked) :
    followBase64Options.ReadFollow = true ∧
      ActiveMQ.Read E followBase64Options (.message (ascii "aGk=") none :: rest) =
        ⟨[.receive 0, .accept 0, .convert 0 (ascii "aGk=")], .panicked⟩ ∧
      reported (ActiveMQ.Read E followBase64Options
        (.message (ascii "aGk=") none :: rest)).trace = [] ∧
      printed (ActiveMQ.Read E followBase64Options
        (.message (ascii "aGk=") none :: rest)).trace = [] ∧
      receiveCalls (ActiveMQ.Read E followBase64Options
        (.message (ascii "aGk=") none :: rest)).trace = 1 := by
  have h := base64_panic_ends_run E followBase64Options rfl (by decide) (ascii "aGk=") rest hp
  refine ⟨rfl, h, ?_, ?_, ?_⟩ <;> rw [h] <;> rfl

/-- The sample decoder panics on `aGk=` with an empty destination; a second
message, the empty body, would convert, and is never received. -/
theorem follow_mode_base64_panic_ends_loop_witness :
    sampleLibrary.base64Decode [] (ascii "aGk=") = .panicked ∧
      verdict sampleLibrary followBase64Options [] = .emitted [] ∧
      ActiveMQ.Read sampleLibrary followBase64Options
          [.message (ascii "aGk=") none, .message [] none] =
        ⟨[.receive 0, .accept 0, .convert 0 (ascii "aGk=")], .panicked⟩ ∧
      receiveCalls (ActiveMQ.Read sampleLibrary followBase64Options
        [.message (ascii "aGk=") none, .message [] none]).trace = 1 :=
  ⟨by decide, by decide,
    (follow_mode_base64_panic_ends_loop sampleLibrary [.message [] none] (by decide)).2.1,
    (follow_mode_base64_panic_ends_loop sampleLibrary [.message [] none] (by decide)).2.2.2.2⟩

/-- C2 fails on the code, by the defect of C3. In single-shot mode with base64
conversion the body `aGk=` is handed to `Decode(data, body)` with `data` nil.
When that call panics, as Go's decoder does writing into the empty
destination, `(*ActiveMQ).Read` neither prints a line and returns nil nor
returns an error: the run ends in the panic with nothing printed. `Receive`
is still called only once. -/
theorem single_shot_base64_panic (E : Library) (rest : List Delivery)
    (hp : E.base64Decode [] (ascii "aGk=") = .panicked) :
    base64Options.ReadFollow = false ∧
      (ActiveMQ.Read E base64Options (.message (ascii "aGk=") none :: rest)).outcome =
        .panicked ∧
      (∀ err, (ActiveMQ.Read E base64Options (.message (ascii "aGk=") none :: rest)).outcome ≠
        .returned err) ∧
      printed (ActiveMQ.Read E base64Options (.message (ascii "aGk=") none :: rest)).trace =
        [] ∧
      receiveCalls (ActiveMQ.Read E base64Options
        (.message (ascii "aGk=") none :: rest)).trace = 1 := by
  have h := base64_panic_ends_run E base64Options rfl (by decide) (ascii "aGk=") rest hp
  refine ⟨rfl, ?_, ?_, ?_, ?_⟩
  · rw [h]
  · intro err
    rw [h]
    simp
  · rw [h]; rfl
  · rw [h]; rfl

/-- The sample decoder panics on `aGk=` with an empty destination, and the
single-shot run on that message ends in the panic. -/
theorem single_shot_base64_panic_witness :
    sampleLibrary.base64Decode [] (ascii "aGk=") = .panicked ∧
      (ActiveMQ.Read sampleLibrary base64Options [.message (ascii "aGk=") none]).outcome =
        .panicked ∧
      printed (ActiveMQ.Read sampleLibrary base64Options
        [.message (ascii "aGk=") none]).trace = [] :=
  ⟨by decide, (single_shot_base64_panic sampleLibrary [] (by decide)).2.1,
    (single_shot_base64_panic sampleLibrary [] (by decide)).2.2.2.1⟩

end Plumber
